import Mathlib

/-!
Shallow embedding of the conversation-analytics pipeline in
`app/modules/analytics/conversations.py`: timestamp parsing, the
direction/sender classifiers, the conversation filter passes, the paginated
fetch loop, the 429 backoff loop, the per-conversation aggregation and its
sorted message table, and the insights context sampler.  Numeric values are
modelled at whole-second granularity and timezone conversion (which never
changes the instant an aware datetime denotes) is modelled as the identity on
instants.
-/

namespace ConvAnalytics

/-- Subset of Python values flowing through the analytics helpers: `None`,
`int` (timestamps and type codes), `str`, and `bool` (which Python treats as a
subtype of `int`). -/
inductive PyVal where
  | none : PyVal
  | int : Int → PyVal
  | str : String → PyVal
  | bool : Bool → PyVal
deriving DecidableEq, Repr

/-- Python truthiness for the modelled values. -/
def pyTruthy : PyVal → Bool
  | .none => false
  | .int n => n != 0
  | .str s => s != ""
  | .bool b => b

/-- Python `a or b` on modelled values. -/
def pyOr (a b : PyVal) : PyVal := if pyTruthy a then a else b

/-- Python `str(...)` on modelled values. -/
def pyStr : PyVal → String
  | .none => "None"
  | .int n => toString n
  | .str s => s
  | .bool b => if b then "True" else "False"

/-- Python `str.lower()` (ASCII granularity), computed structurally on the
character data. -/
def pyLower (s : String) : String := (s.data.map Char.toLower).asString

/-- Python `str.strip()` (ASCII whitespace granularity), computed structurally
on the character data. -/
def pyStrip (s : String) : String :=
  (((s.data.dropWhile Char.isWhitespace).reverse.dropWhile Char.isWhitespace).reverse).asString

/-- Python `str.replace(c, r)` for a single-character pattern, the only shape
the source uses (`"Z"` and `"\n"`). -/
def replaceChar (s : String) (c : Char) (r : String) : String :=
  (s.data.flatMap (fun x => if x = c then r.data else [x])).asString

/-- Python `str.split(sep)` for a single-character separator. -/
def splitOnChar (cs : List Char) (sep : Char) : List (List Char) :=
  match cs with
  | [] => [[]]
  | c :: rest =>
    let tail := splitOnChar rest sep
    if c = sep then [] :: tail
    else
      match tail with
      | [] => [[c]]
      | p :: ps => (c :: p) :: ps

/-- Python slicing `s[:n]` on characters. -/
def pyTake (s : String) (n : Nat) : String := (s.data.take n).asString

/-- Python `a or b` where both operands are optional strings (`None` and the
empty string are falsy). -/
def pyStrOr (a b : Option String) : Option String :=
  match a with
  | some s => if s = "" then b else some s
  | none => b

/-- Python truthiness of an optional string. -/
def pyStrTruthy : Option String → Bool
  | some s => s != ""
  | none => false

/-- Python `a or b` where both operands are optional ints (`None` and `0` are
falsy). -/
def pyIntOr (a b : Option Int) : Option Int :=
  match a with
  | some n => if n = 0 then b else some n
  | none => b

/-- Python truthiness of an optional int. -/
def pyIntTruthy : Option Int → Bool
  | some n => n != 0
  | none => false

/-- Python `str(x)` for an optional int (`None` prints as `"None"`). -/
def pyStrOfIntOpt (a : Option Int) : String :=
  match a with
  | some n => toString n
  | none => "None"

/-- Python `str(x)` for an optional string (`None` prints as `"None"`). -/
def pyStrOfStrOpt (a : Option String) : String :=
  match a with
  | some s => s
  | none => "None"

/-! ### Timestamp parsing (`_parse_ts`) -/

/-- Smallest instant representable by a Python `datetime` (epoch seconds of
0001-01-01T00:00:00 UTC). -/
def pyDatetimeMin : Int := -62135596800

/-- Largest instant representable by a Python `datetime` (epoch seconds of
9999-12-31T23:59:59 UTC). -/
def pyDatetimeMax : Int := 253402300799

/-- Model of `datetime.fromtimestamp(v, tz=timezone.utc)`: succeeds exactly on
epoch values inside the representable `datetime` range and raises otherwise. -/
def fromtimestampE (v : Int) : Except String Int :=
  if pyDatetimeMin ≤ v ∧ v ≤ pyDatetimeMax then .ok v else .error "timestamp out of range"

/-- Numeric value of a decimal digit character. -/
def digitVal (c : Char) : Nat := c.toNat - 48

/-- Value of a list of decimal digit characters, most significant first. -/
def decValue (cs : List Char) : Nat := cs.foldl (fun a c => 10 * a + digitVal c) 0

/-- Gregorian leap-year test. -/
def isLeapYear (y : Nat) : Bool := (y % 4 == 0 && y % 100 != 0) || y % 400 == 0

/-- Number of days in a month of the proleptic Gregorian calendar. -/
def daysInMonth (y m : Nat) : Nat :=
  if m = 2 then (if isLeapYear y then 29 else 28)
  else if m = 4 ∨ m = 6 ∨ m = 9 ∨ m = 11 then 30
  else 31

/-- Number of days in the months of year `y` strictly before month `m`. -/
def daysBeforeMonth (y m : Nat) : Nat :=
  (List.range (m - 1)).foldl (fun a i => a + daysInMonth y (i + 1)) 0

/-- Days from 0001-01-01 to the given civil date (proleptic Gregorian). -/
def daysFromCivil (y m d : Nat) : Int :=
  365 * ((y : Int) - 1) + ((y : Int) - 1) / 4 - ((y : Int) - 1) / 100
    + ((y : Int) - 1) / 400 + (daysBeforeMonth y m : Int) + ((d : Int) - 1)

/-- Epoch seconds of a civil date-time taken at UTC; 719162 days separate
0001-01-01 from 1970-01-01. -/
def epochOfCivil (y mo d h mi s : Nat) : Int :=
  (daysFromCivil y mo d - 719162) * 86400 + 3600 * (h : Int) + 60 * (mi : Int) + (s : Int)

/-- Parse a `YYYY-MM-DD` character block, validating the calendar. -/
def parseDatePart (cs : List Char) : Option (Nat × Nat × Nat) :=
  match cs with
  | [y1, y2, y3, y4, '-', m1, m2, '-', d1, d2] =>
    if ([y1, y2, y3, y4, m1, m2, d1, d2].all Char.isDigit) then
      let y := decValue [y1, y2, y3, y4]
      let m := decValue [m1, m2]
      let d := decValue [d1, d2]
      if 1 ≤ y ∧ 1 ≤ m ∧ m ≤ 12 ∧ 1 ≤ d ∧ d ≤ daysInMonth y m then some (y, m, d)
      else none
    else none
  | _ => none

/-- Parse a `HH:MM:SS` character block into seconds of day. -/
def parseTimePart (cs : List Char) : Option Nat :=
  match cs with
  | [h1, h2, ':', m1, m2, ':', s1, s2] =>
    if ([h1, h2, m1, m2, s1, s2].all Char.isDigit) then
      let h := decValue [h1, h2]
      let mi := decValue [m1, m2]
      let s := decValue [s1, s2]
      if h ≤ 23 ∧ mi ≤ 59 ∧ s ≤ 59 then some (3600 * h + 60 * mi + s) else none
    else none
  | _ => none

/-- Model of `datetime.fromisoformat` restricted to the shapes this pipeline
meets: `YYYY-MM-DD`, optionally followed by `T` or a space and `HH:MM:SS`,
optionally suffixed by the `+00:00` UTC offset that a trailing `Z` is rewritten
to.  Every other string is a parse error. -/
def fromisoformatE (s : String) : Except String Int :=
  let cs := s.toList
  match parseDatePart cs with
  | some (y, m, d) => .ok (epochOfCivil y m d 0 0 0)
  | none =>
    if cs.length ≥ 11 ∧ (cs.get? 10 = some 'T' ∨ cs.get? 10 = some ' ') then
      match parseDatePart (cs.take 10) with
      | some (y, m, d) =>
        let rest := cs.drop 11
        let base := epochOfCivil y m d 0 0 0
        match parseTimePart rest with
        | some secs => .ok (base + secs)
        | none =>
          if rest.drop 8 = "+00:00".toList then
            match parseTimePart (rest.take 8) with
            | some secs => .ok (base + secs)
            | none => .error "invalid isoformat string"
          else .error "invalid isoformat string"
      | none => .error "invalid isoformat string"
    else .error "invalid isoformat string"

/-- Model of Python `float(s)` restricted to decimal literals, truncated to
whole seconds: optional surrounding whitespace, optional sign, digits with an
optional fractional part. -/
def floatOfStringE (s : String) : Except String Int :=
  let cs := (pyStrip s).toList
  let signed : Bool × List Char :=
    match cs with
    | '-' :: rest => (true, rest)
    | '+' :: rest => (false, rest)
    | _ => (false, cs)
  let ip := signed.2.takeWhile (fun c => c ≠ '.')
  let rest := signed.2.dropWhile (fun c => c ≠ '.')
  let fracOk : Bool :=
    match rest with
    | [] => true
    | '.' :: fr => fr.all Char.isDigit
    | _ => false
  if (ip.all Char.isDigit) && fracOk && (!ip.isEmpty || rest.length ≥ 2) then
    let v : Int := (decValue ip : Int)
    .ok (if signed.1 then -v else v)
  else .error "could not convert string to float"

/-- Model of `_parse_ts` with Python's exception flow made explicit: the result
is an `Except` so that an exception escaping the function would show up as
`.error`; the theorems show only `.ok` ever escapes. -/
def parseTsE (value : PyVal) : Except String (Option Int) :=
  match value with
  | .none => .ok none
  | .int n =>
    match fromtimestampE n with
    | .ok d => .ok (some d)
    | .error _ => .ok none
  | .bool b =>
    match fromtimestampE (if b then 1 else 0) with
    | .ok d => .ok (some d)
    | .error _ => .ok none
  | .str s =>
    match fromisoformatE (replaceChar s 'Z' "+00:00") with
    | .ok d => .ok (some d)
    | .error _ =>
      match floatOfStringE s with
      | .ok v =>
        match fromtimestampE v with
        | .ok d => .ok (some d)
        | .error _ => .ok none
      | .error _ => .ok none

/-- Model of `_parse_ts` as an ordinary partial operation. -/
def parseTs (value : PyVal) : Option Int :=
  match parseTsE value with
  | .ok r => r
  | .error _ => none

/-! ### Partial matching (`_match_partial`) -/

/-- Character-list test mirroring `startswith`. -/
def startsWithSeq : List Char → List Char → Bool
  | _, [] => true
  | [], _ :: _ => false
  | t :: ts, p :: ps => t = p && startsWithSeq ts ps

/-- Contiguous occurrence test for a character pattern. -/
def containsSeq (text pat : List Char) : Bool :=
  match text with
  | [] => pat.isEmpty
  | _ :: ts => startsWithSeq text pat || containsSeq ts pat

/-- Leftmost occurrence of `pat` in `text`, returning the suffix after it. -/
def dropAfterSeq : List Char → List Char → Option (List Char)
  | [], pat => if startsWithSeq [] pat then some [] else none
  | c :: ts, pat =>
    if startsWithSeq (c :: ts) pat then some ((c :: ts).drop pat.length)
    else dropAfterSeq ts pat

/-- Ordered occurrence of each piece in turn, mirroring a `p0.*p1.*p2` regex
search (wildcard gaps modelled as unrestricted). -/
def seqPiecesMatch (text : List Char) : List (List Char) → Bool
  | [] => true
  | p :: ps =>
    match dropAfterSeq text p with
    | some rest => seqPiecesMatch rest ps
    | none => false

/-- Model of `_match_partial`: an empty or whitespace pattern always matches, a
pattern containing `*` is an ordered case-insensitive substring search of its
pieces, anything else is a plain case-insensitive substring test. -/
def matchPartial (text pat : String) : Bool :=
  if pat = "" then true
  else
    let p := pyStrip pat
    if p = "" then true
    else if p.data.contains '*' then
      seqPiecesMatch (pyLower text).toList (splitOnChar (pyLower p).toList '*')
    else containsSeq (pyLower text).toList (pyLower p).toList

/-! ### Message records and classifiers -/

/-- Sender object attached to a message or conversation (`sender`,
`sender_info`, `meta.sender`, `contact`); an absent or empty mapping is
modelled as `none`. -/
structure SenderObj where
  type : Option String := none
  sender_type : Option String := none
  id : Option Int := none
  name : Option String := none
  email : Option String := none
  identifier : Option String := none
  phone_number : Option String := none
  phone : Option String := none
deriving DecidableEq, Repr

/-- Message payload fields read by the pipeline.  `private` is a Lean keyword,
so that field is named `privateFlag`. -/
structure Message where
  message_type : PyVal := .none
  created_at : PyVal := .none
  timestamp : PyVal := .none
  status : PyVal := .none
  delivery_status : PyVal := .none
  message_status : PyVal := .none
  state : PyVal := .none
  privateFlag : PyVal := .none
  content : Option String := none
  processed_message_content : Option String := none
  sender_type : Option String := none
  sender : Option SenderObj := none
  sender_info : Option SenderObj := none
  sender_name : Option String := none
  sender_email : Option String := none
  agent_name : Option String := none
  user_name : Option String := none
deriving DecidableEq, Repr

/-- The `type`/`sender_type` chain inside one sender object. -/
def senderTypeOfObj : Option SenderObj → Option String
  | some s => pyStrOr s.type s.sender_type
  | none => none

/-- Model of `_message_sender_type`: explicit `sender_type` field, falling back
to the nested sender objects, then stripped and lower-cased ("" if absent). -/
def messageSenderType (m : Message) : String :=
  match pyStrOr m.sender_type
      (pyStrOr (senderTypeOfObj m.sender) (senderTypeOfObj m.sender_info)) with
  | some s => if s = "" then "" else pyLower (pyStrip s)
  | none => ""

/-- Bot-sender allow-list, loaded by the source from environment variables
(`BOT_SENDER_NAMES`, stored lower-cased, and `BOT_SENDER_IDS`); modelled as an
explicit parameter instead of ambient state. -/
structure BotConfig where
  names : List String := []
  ids : List String := []
deriving DecidableEq, Repr

/-- The object `_sender_identity` reads (`sender or sender_info or {}`). -/
def senderIdentityObj (m : Message) : Option SenderObj :=
  match m.sender with
  | some s => some s
  | none => m.sender_info

/-- The id string produced by `_sender_identity` (`str(sender.get("id") or "")`,
so an id of `0` is treated as absent). -/
def senderIdentityId (m : Message) : String :=
  match senderIdentityObj m with
  | some s =>
    match s.id with
    | some n => if n = 0 then "" else pyStrip (toString n)
    | none => ""
  | none => ""

/-- The display-name string produced by `_sender_identity`. -/
def senderIdentityName (m : Message) : String :=
  match senderIdentityObj m with
  | some s => pyStrip ((pyStrOr s.name (pyStrOr s.email s.identifier)).getD "")
  | none => ""

/-- Model of `_is_bot_sender`. -/
def isBotSender (cfg : BotConfig) (m : Message) : Bool :=
  let st := messageSenderType m
  if st = "agentbot" ∨ st = "bot" then true
  else if cfg.names = [] ∧ cfg.ids = [] then false
  else
    let sid := senderIdentityId m
    let snm := senderIdentityName m
    if sid ≠ "" ∧ sid ∈ cfg.ids then true
    else if snm ≠ "" ∧ pyLower snm ∈ cfg.names then true
    else false

/-- Model of `_is_agent_sender`.  Note that the source never examines the
message direction here. -/
def isAgentSender (cfg : BotConfig) (m : Message) : Bool :=
  if isBotSender cfg m then false
  else messageSenderType m == "user" || messageSenderType m == "agent"

/-- Model of `_message_direction`.  Python `bool` passes the
`isinstance(msg_type, int)` test, so `True`/`False` behave as `1`/`0`. -/
def messageDirection (m : Message) : Option String :=
  match m.message_type with
  | .int n => if n = 0 then some "incoming" else if n = 1 then some "outgoing" else none
  | .bool b => if b then some "outgoing" else some "incoming"
  | v =>
    let s := pyLower (pyStr v)
    if s ≠ "" ∧ s.toList.all Char.isDigit then
      let k := decValue s.toList
      if k = 0 then some "incoming" else if k = 1 then some "outgoing" else none
    else if s = "incoming" ∨ s = "outgoing" then some s
    else none

/-- Model of `_include_message_for_type`. -/
def includeMessageForType (cfg : BotConfig) (m : Message) (conversationType : String) : Bool :=
  if conversationType = "Todos" then true
  else
    match messageDirection m with
    | some "incoming" => true
    | some "outgoing" =>
      if conversationType = "Bot" then isBotSender cfg m
      else if conversationType = "Agente" then isAgentSender cfg m && !isBotSender cfg m
      else false
    | _ => false

/-- The `sender_name`/`sender_email`/`agent_name`/`user_name` fallback chain of
`_message_sender_label` (falsy values skipped). -/
def labelFieldChain (m : Message) : Option String :=
  pyStrOr m.sender_name (pyStrOr m.sender_email (pyStrOr m.agent_name m.user_name))

/-- Model of `_message_sender_label`. -/
def messageSenderLabel (cfg : BotConfig) (m : Message) : String :=
  if messageDirection m = some "incoming" then "Cliente"
  else if isBotSender cfg m then "Bot"
  else if isAgentSender cfg m then
    if senderIdentityName m ≠ "" then senderIdentityName m
    else
      match labelFieldChain m with
      | some v => if v = "" then "Agente (tipo não informado)" else v
      | none => "Agente (tipo não informado)"
  else
    match labelFieldChain m with
    | some v =>
      if v = "" then (if messageSenderType m = "" then "Agente (tipo não informado)" else "Agente")
      else v
    | none => if messageSenderType m = "" then "Agente (tipo não informado)" else "Agente"

/-! ### Conversation records and the filter passes -/

/-- Team object (`conv["team"]` / `meta["team"]`); absent or empty mappings are
modelled as `none`. -/
structure TeamObj where
  id : Option Int := none
deriving DecidableEq, Repr

/-- Assignee object (`meta["assignee"]` / `conv["assignee"]`). -/
structure AssigneeObj where
  id : Option Int := none
  name : Option String := none
  email : Option String := none
deriving DecidableEq, Repr

/-- Conversation payload fields read by the pipeline, with the `meta` mapping
flattened into `meta_*` fields. -/
structure Conversation where
  id : Option Int := none
  display_id : Option Int := none
  inbox_id : Option Int := none
  meta_sender : Option SenderObj := none
  contact : Option SenderObj := none
  meta_assignee : Option AssigneeObj := none
  assignee : Option AssigneeObj := none
  status : Option String := none
  meta_status : Option String := none
  team_id : Option Int := none
  team : Option TeamObj := none
  meta_team : Option TeamObj := none
  created_at : PyVal := .none
  first_reply_created_at : PyVal := .none
  last_activity_at : PyVal := .none
  updated_at : PyVal := .none
deriving DecidableEq, Repr

/-- Filter configuration passed to `_collect_conversation_rows` and the
aggregation, as assembled by `_render_conversation_filters`. -/
structure Filters where
  conversation_id_filter : String := ""
  selected_inbox_ids : List Int := []
  contact_name : String := ""
  contact_number : String := ""
  selected_agent_id : Option String := none
  assigned_filter : String := "Todos"
  status_filter : String := "Todos"
  selected_team_id : Option String := none
  conversation_type : String := "Todos"
  message_statuses : List String := ["Todos"]
deriving DecidableEq, Repr

/-- Python `a or b` for optional objects (an absent or empty mapping is
falsy and modelled as `none`). -/
def pyObjOr {α : Type} (a b : Option α) : Option α :=
  match a with
  | some x => some x
  | none => b

/-- The `conv.get("id") or conv.get("display_id")` chain (`0` is falsy). -/
def convIdOf (conv : Conversation) : Option Int := pyIntOr conv.id conv.display_id

/-- The `meta.get("sender") or conv.get("contact") or {}` chain. -/
def contactObj (conv : Conversation) : Option SenderObj := pyObjOr conv.meta_sender conv.contact

/-- Contact display name (`sender.get("name") or sender.get("identifier") or ""`). -/
def contactNameVal (conv : Conversation) : String :=
  match contactObj conv with
  | some s => (pyStrOr s.name s.identifier).getD ""
  | none => ""

/-- Contact phone (`phone_number or phone or identifier or ""`). -/
def contactPhoneVal (conv : Conversation) : String :=
  match contactObj conv with
  | some s => (pyStrOr s.phone_number (pyStrOr s.phone s.identifier)).getD ""
  | none => ""

/-- The `meta.get("assignee") or conv.get("assignee") or {}` chain. -/
def assigneeObjOf (conv : Conversation) : Option AssigneeObj :=
  pyObjOr conv.meta_assignee conv.assignee

/-- Assignee id extracted from the resolved assignee object. -/
def assigneeIdOf (conv : Conversation) : Option Int := (assigneeObjOf conv).bind (·.id)

/-- The `conv.get("status") or meta.get("status")` chain. -/
def statusValOf (conv : Conversation) : Option String := pyStrOr conv.status conv.meta_status

/-- Team id resolution: `conv["team_id"]` when truthy, else the id of
`conv["team"] or meta["team"] or {}`. -/
def teamIdResolved (conv : Conversation) : Option Int :=
  if pyIntTruthy conv.team_id then conv.team_id
  else (pyObjOr conv.team conv.meta_team).bind (·.id)

/-- Membership of an optional inbox id in the selected-inbox set. -/
def inboxMem (inbox : Option Int) (sel : List Int) : Bool :=
  match inbox with
  | some i => decide (i ∈ sel)
  | none => false

/-- The non-temporal part of the `_collect_conversation_rows` guard chain, in
source order: conversation-id, inbox, contact name, contact number, agent,
assignment, status, team. -/
def convPassesNonTemporal (filters : Filters) (conv : Conversation) : Bool :=
  match convIdOf conv with
  | none => false
  | some cid =>
    if filters.conversation_id_filter ≠ "" ∧
        toString cid ≠ pyStrip filters.conversation_id_filter then false
    else if filters.selected_inbox_ids ≠ [] ∧
        inboxMem conv.inbox_id filters.selected_inbox_ids = false then false
    else if filters.contact_name ≠ "" ∧
        matchPartial (contactNameVal conv) filters.contact_name = false then false
    else if filters.contact_number ≠ "" ∧
        matchPartial (contactPhoneVal conv) filters.contact_number = false then false
    else if pyStrTruthy filters.selected_agent_id ∧
        pyStrOfIntOpt (assigneeIdOf conv) ≠ filters.selected_agent_id.getD "" then false
    else if filters.assigned_filter = "Sim" ∧ pyIntTruthy (assigneeIdOf conv) = false then false
    else if filters.assigned_filter = "Não" ∧ pyIntTruthy (assigneeIdOf conv) then false
    else if filters.status_filter ≠ "Todos" ∧
        pyStrOfStrOpt (statusValOf conv) ≠ filters.status_filter then false
    else if pyStrTruthy filters.selected_team_id ∧
        pyStrOfIntOpt (teamIdResolved conv) ≠ filters.selected_team_id.getD "" then false
    else true

/-- Creation-instant window test applied when `enforce_created_range` is set:
an unparseable `created_at` fails it. -/
def createdInRange (start_dt end_dt : Int) (conv : Conversation) : Bool :=
  match parseTs conv.created_at with
  | none => false
  | some t => decide (start_dt ≤ t) && decide (t ≤ end_dt)

/-- Whole-conversation acceptance test of `_collect_conversation_rows`: the
non-temporal guard chain, then (only when `enforce_created_range`) the
creation-date window as the final guard, exactly as in the source. -/
def convPasses (filters : Filters) (start_dt end_dt : Int) (enforce_created_range : Bool)
    (conv : Conversation) : Bool :=
  convPassesNonTemporal filters conv &&
    (if enforce_created_range then createdInRange start_dt end_dt conv else true)

/-- Model of `_collect_conversation_rows`: the accepted conversations (the
source materialises them as row dicts) and the api-id list, which appends
`conv.get("id")` whenever it is not `None`. -/
def collectConversationRows (conversations : List Conversation) (filters : Filters)
    (start_dt end_dt : Int) (enforce_created_range : Bool) :
    List Conversation × List Int :=
  let accepted := conversations.filter (convPasses filters start_dt end_dt enforce_created_range)
  (accepted, accepted.filterMap (·.id))

/-! ### Display formatting helpers -/

/-- Two-digit zero padding (`f"{n:02d}"`; wider numbers print in full). -/
def pad2 (n : Nat) : String := if n < 10 then "0" ++ toString n else toString n

/-- Four-digit zero padding for years. -/
def pad4 (n : Nat) : String :=
  if n < 10 then "000" ++ toString n
  else if n < 100 then "00" ++ toString n
  else if n < 1000 then "0" ++ toString n
  else toString n

/-- Civil date (year, month, day) of a day count relative to 1970-01-01. -/
def civilFromDays (z : Int) : Int × Nat × Nat :=
  let zz := z + 719468
  let era := Int.ediv zz 146097
  let doe := (Int.emod zz 146097).toNat
  let yoe := (doe - doe / 1460 + doe / 36524 - doe / 146096) / 365
  let doy := doe - (365 * yoe + yoe / 4 - yoe / 100)
  let mp := (5 * doy + 2) / 153
  let d := doy - (153 * mp + 2) / 5 + 1
  let m := if mp < 10 then mp + 3 else mp - 9
  (era * 400 + yoe + (if m ≤ 2 then 1 else 0), m, d)

/-- Model of `strftime("%d/%m/%Y %H:%M:%S")` on an instant (timezone
conversion is the identity on instants at the modelled granularity). -/
def strftimeBr (t : Int) : String :=
  let days := Int.ediv t 86400
  let secs := (Int.emod t 86400).toNat
  let ymd := civilFromDays days
  pad2 ymd.2.2 ++ "/" ++ pad2 ymd.2.1 ++ "/" ++ pad4 ymd.1.toNat ++ " " ++
    pad2 (secs / 3600) ++ ":" ++ pad2 (secs % 3600 / 60) ++ ":" ++ pad2 (secs % 60)

/-- Model of `_format_duration`: `HH:MM:SS` of a non-negative delta, or the
empty string when an instant is missing or the delta is negative. -/
def formatDuration (startDt endDt : Option Int) : String :=
  match startDt, endDt with
  | some a, some b =>
    if b - a < 0 then ""
    else
      let tn := (b - a).toNat
      pad2 (tn / 3600) ++ ":" ++ pad2 (tn % 3600 / 60) ++ ":" ++ pad2 (tn % 60)
  | _, _ => ""

/-! ### Per-conversation message scan -/

/-- Raw timestamp of a message (`created_at or timestamp`). -/
def msgTsRaw (m : Message) : PyVal := pyOr m.created_at m.timestamp

/-- Date-window survival: a parseable instant outside `[start_dt, end_dt]` is
skipped; an unparseable or missing one survives. -/
def msgInWindow (start_dt end_dt : Int) (m : Message) : Bool :=
  match parseTs (msgTsRaw m) with
  | some t => decide (start_dt ≤ t) && decide (t ≤ end_dt)
  | none => true

/-- The `status or delivery_status or message_status or state` chain. -/
def msgStatusVal (m : Message) : PyVal :=
  pyOr m.status (pyOr m.delivery_status (pyOr m.message_status m.state))

/-- Message-status filter: with a non-empty selected set, `str(status)` must
be among the selected statuses. -/
def msgStatusOk (selected : List String) (m : Message) : Bool :=
  selected.isEmpty || decide (pyStr (msgStatusVal m) ∈ selected)

/-- Truthiness of the `private` field after the source's string coercion. -/
def msgIsPrivate (m : Message) : Bool :=
  match m.privateFlag with
  | .str s => decide (pyLower (pyStrip s) ∈ ["true", "1", "yes", "sim"])
  | v => pyTruthy v

/-- Row content: `msg.get("content")`, falling back (only when `None`) to
`processed_message_content or ""`. -/
def msgContentVal (m : Message) : String :=
  match m.content with
  | some c => c
  | none =>
    match m.processed_message_content with
    | some p => p
    | none => ""

/-- Per-conversation display info cached in `conv_meta`. -/
structure ConvInfo where
  created_dt : Option Int := none
  created_str : String := ""
  inbox_name : String := ""
  first_reply_delta : String := ""
  contact_name : String := ""
  contact_phone : String := ""
deriving DecidableEq, Repr

/-- Inbox display name: `inbox_id_to_name.get(inbox_id, inbox_id)`. -/
def inboxNameOf (nameMap : Int → Option String) (inbox : Option Int) : String :=
  match inbox with
  | some i => (nameMap i).getD (toString i)
  | none => "None"

/-- Info record built for one conversation (`conv_meta[conv_id] = {...}`). -/
def convInfoOf (nameMap : Int → Option String) (conv : Conversation) : ConvInfo :=
  let created := parseTs conv.created_at
  let firstReply :=
    if conv.first_reply_created_at ∈ ([.none, .str "", .int 0, .str "0", .str "0.0"] : List PyVal)
    then none
    else parseTs conv.first_reply_created_at
  { created_dt := created
    created_str := match created with | some t => strftimeBr t | none => ""
    inbox_name := inboxNameOf nameMap conv.inbox_id
    first_reply_delta := formatDuration created firstReply
    contact_name := contactNameVal conv
    contact_phone := contactPhoneVal conv }

/-- Lookup of `conv_meta.get(conv_id) or {}`: info of the last conversation in
the payload whose resolved id is `cid` and lies in the message-fetch id set
(dict insertion overwrites, so the last occurrence wins). -/
def convMetaLookup (nameMap : Int → Option String) (conversations : List Conversation)
    (msgIds : List Int) (cid : Int) : ConvInfo :=
  match (conversations.filter
      (fun c => convIdOf c = some cid && decide (cid ∈ msgIds))).getLast? with
  | some c => convInfoOf nameMap c
  | none => {}

/-- One display row of the insights message table, including the transient
`_sort_conv_dt` / `_sort_msg_dt` keys that are popped after sorting. -/
structure MsgRow where
  id_conversa : Int
  autor : String
  nome_contato : String
  numero_contato : String
  inicio_conversa : String
  caixa_entrada : String
  primeira_resposta : String
  status_mensagem : PyVal
  mensagem : String
  data_hora_mensagem : String
  sort_conv_dt : Option Int
  sort_msg_dt : Option Int
deriving DecidableEq, Repr

/-- Display row after the sort keys are popped. -/
structure MsgRowPub where
  id_conversa : Int
  autor : String
  nome_contato : String
  numero_contato : String
  inicio_conversa : String
  caixa_entrada : String
  primeira_resposta : String
  status_mensagem : PyVal
  mensagem : String
  data_hora_mensagem : String
deriving DecidableEq, Repr

/-- Projection popping the transient sort keys. -/
def MsgRow.toPub (r : MsgRow) : MsgRowPub :=
  { id_conversa := r.id_conversa
    autor := r.autor
    nome_contato := r.nome_contato
    numero_contato := r.numero_contato
    inicio_conversa := r.inicio_conversa
    caixa_entrada := r.caixa_entrada
    primeira_resposta := r.primeira_resposta
    status_mensagem := r.status_mensagem
    mensagem := r.mensagem
    data_hora_mensagem := r.data_hora_mensagem }

/-- Outcome of scanning one conversation's fetched messages. -/
structure ConvScan where
  hasBotOutgoing : Bool := false
  hasAgentOutgoing : Bool := false
  received : Nat := 0
  sent : Nat := 0
  priv : Nat := 0
  msgCount : Nat := 0
  rows : List MsgRow := []
deriving DecidableEq, Repr

/-- Direction/sender flag update of one loop step (`has_bot_outgoing` /
`has_agent_outgoing`, the `elif` giving bot priority). -/
def scanFlagsUpdate (cfg : BotConfig) (acc : ConvScan) (m : Message) : ConvScan :=
  if messageDirection m = some "outgoing" then
    if isBotSender cfg m then { acc with hasBotOutgoing := true }
    else if isAgentSender cfg m then { acc with hasAgentOutgoing := true }
    else acc
  else acc

/-- Private-counter update of one loop step. -/
def scanPrivUpdate (acc : ConvScan) (m : Message) : ConvScan :=
  if msgIsPrivate m then { acc with priv := acc.priv + 1 } else acc

/-- Received/sent counter update of one loop step. -/
def scanDirCounters (acc : ConvScan) (m : Message) : ConvScan :=
  if messageDirection m = some "incoming" then { acc with received := acc.received + 1 }
  else if messageDirection m = some "outgoing" then { acc with sent := acc.sent + 1 }
  else acc

/-- Row construction of one loop step. -/
def scanRowOf (cfg : BotConfig) (info : ConvInfo) (cid : Int) (m : Message) : MsgRow :=
  { id_conversa := cid
    autor := messageSenderLabel cfg m
    nome_contato := info.contact_name
    numero_contato := info.contact_phone
    inicio_conversa := info.created_str
    caixa_entrada := info.inbox_name
    primeira_resposta := info.first_reply_delta
    status_mensagem := msgStatusVal m
    mensagem := msgContentVal m
    data_hora_mensagem :=
      match parseTs (msgTsRaw m) with
      | some t => strftimeBr t
      | none => ""
    sort_conv_dt := info.created_dt
    sort_msg_dt := parseTs (msgTsRaw m) }

/-- Row append of one loop step. -/
def scanRowAppend (cfg : BotConfig) (info : ConvInfo) (cid : Int) (acc : ConvScan)
    (m : Message) : ConvScan :=
  { acc with rows := acc.rows ++ [scanRowOf cfg info cid m], msgCount := acc.msgCount + 1 }

/-- One step of the per-conversation message loop shared by the analysis tab
and the insights builder.  `addRows` is the analysis tab's `should_add_rows`
gate; the insights builder always adds rows. -/
def scanStep (cfg : BotConfig) (conversationType : String) (selStatuses : List String)
    (start_dt end_dt : Int) (info : ConvInfo) (cid : Int) (addRows : Bool)
    (acc : ConvScan) (m : Message) : ConvScan :=
  if msgInWindow start_dt end_dt m = false then acc
  else if msgStatusOk selStatuses m = false then acc
  else
    let acc1 := scanFlagsUpdate cfg acc m
    if includeMessageForType cfg m conversationType = false then acc1
    else
      let acc2 := scanPrivUpdate acc1 m
      let acc3 := scanDirCounters acc2 m
      if addRows = false then acc3
      else scanRowAppend cfg info cid acc3 m

/-- Scan of one conversation's message list. -/
def scanConvMessages (cfg : BotConfig) (conversationType : String) (selStatuses : List String)
    (start_dt end_dt : Int) (info : ConvInfo) (cid : Int) (addRows : Bool)
    (msgs : List Message) : ConvScan :=
  msgs.foldl (scanStep cfg conversationType selStatuses start_dt end_dt info cid addRows) {}

/-- The conversation-type gate applied after the message scan (`Bot` demands a
bot-classified outgoing message, `Agente` an agent-classified one). -/
def convKept (conversationType : String) (scan : ConvScan) : Bool :=
  if conversationType = "Bot" ∧ scan.hasBotOutgoing = false then false
  else if conversationType = "Agente" ∧ scan.hasAgentOutgoing = false then false
  else true

/-! ### Sorting of the message table -/

/-- Sort key of a message row: `(conversation instant, str(conversation id),
message instant)`, with missing instants replaced by `datetime.min`. -/
def rowSortKey (r : MsgRow) : Int × String × Int :=
  (r.sort_conv_dt.getD pyDatetimeMin, toString r.id_conversa, r.sort_msg_dt.getD pyDatetimeMin)

/-- Lexicographic code-point comparison of character lists, which is exactly
Python's string comparison. -/
def charsLt : List Char → List Char → Bool
  | [], [] => false
  | [], _ :: _ => true
  | _ :: _, [] => false
  | a :: as, b :: bs =>
    if a.toNat < b.toNat then true
    else if b.toNat < a.toNat then false
    else charsLt as bs

/-- Strict comparison of the string components of sort keys. -/
def strLt (a b : String) : Bool := charsLt a.data b.data

/-- Lexicographic comparison of sort keys (Python tuple comparison). -/
def keyLE (a b : Int × String × Int) : Bool :=
  if a.1 < b.1 then true
  else if b.1 < a.1 then false
  else if strLt a.2.1 b.2.1 then true
  else if strLt b.2.1 a.2.1 then false
  else decide (a.2.2 ≤ b.2.2)

/-- Row comparison used by the sort. -/
def rowLE (a b : MsgRow) : Bool := keyLE (rowSortKey a) (rowSortKey b)

/-- Stable insertion of one row in front of the first strictly greater key. -/
def orderedInsertRow (a : MsgRow) : List MsgRow → List MsgRow
  | [] => [a]
  | b :: t => if rowLE a b then a :: b :: t else b :: orderedInsertRow a t

/-- Stable sort modelling Python's stable `list.sort` under the row key. -/
def sortMsgRows (l : List MsgRow) : List MsgRow := l.foldr orderedInsertRow []

/-! ### Insights aggregation -/

/-- Accumulator of the insights aggregation loop. -/
structure AggAcc where
  total_recebidas : Nat := 0
  total_enviadas : Nat := 0
  total_privadas : Nat := 0
  total_mensagens : Nat := 0
  conversas_privadas : Finset Int := ∅
  allowed_conv_ids : Finset Int := ∅
  message_rows : List MsgRow := []
deriving DecidableEq

/-- Fixed inputs of one aggregation run: classifier configuration, the
conversation-type and message-status filters, the query window, the inbox-name
mapping, the fetched conversation payloads, the relaxed-pass id set, and the
frozen per-conversation message source. -/
structure AggEnv where
  cfg : BotConfig
  ctype : String
  selStatuses : List String
  start_dt : Int
  end_dt : Int
  nameMap : Int → Option String
  conversations : List Conversation
  msgIds : List Int
  fetch : Int → List Message

/-- Scan outcome of one conversation in an aggregation run. -/
def AggEnv.scanOf (env : AggEnv) (cid : Int) : ConvScan :=
  scanConvMessages env.cfg env.ctype env.selStatuses env.start_dt env.end_dt
    (convMetaLookup env.nameMap env.conversations env.msgIds cid) cid true (env.fetch cid)

/-- Whether the conversation survives the conversation-type gate. -/
def AggEnv.keptOf (env : AggEnv) (cid : Int) : Bool :=
  convKept env.ctype (env.scanOf cid)

/-- Message-row block a conversation contributes to the table. -/
def AggEnv.blockOf (env : AggEnv) (cid : Int) : List MsgRow :=
  if env.keptOf cid then (env.scanOf cid).rows else []

/-- Received-counter contribution of a conversation. -/
def AggEnv.recvOf (env : AggEnv) (cid : Int) : Nat :=
  if env.keptOf cid then (env.scanOf cid).received else 0

/-- Sent-counter contribution of a conversation. -/
def AggEnv.sentOf (env : AggEnv) (cid : Int) : Nat :=
  if env.keptOf cid then (env.scanOf cid).sent else 0

/-- Private-counter contribution of a conversation. -/
def AggEnv.privOf (env : AggEnv) (cid : Int) : Nat :=
  if env.keptOf cid then (env.scanOf cid).priv else 0

/-- Message-count contribution of a conversation. -/
def AggEnv.msgsOf (env : AggEnv) (cid : Int) : Nat :=
  if env.keptOf cid then (env.scanOf cid).msgCount else 0

/-- Whether the conversation lands in the private-conversation set. -/
def AggEnv.privFlaggedOf (env : AggEnv) (cid : Int) : Bool :=
  env.keptOf cid && decide ((env.scanOf cid).priv ≠ 0)

/-- Per-conversation update of the aggregation accumulator (the body run when
one message fetch completes). -/
def aggStep (env : AggEnv) (acc : AggAcc) (cid : Int) : AggAcc :=
  let scan := env.scanOf cid
  if convKept env.ctype scan = false then acc
  else
    { total_recebidas := acc.total_recebidas + scan.received
      total_enviadas := acc.total_enviadas + scan.sent
      total_privadas := acc.total_privadas + scan.priv
      total_mensagens := acc.total_mensagens + scan.msgCount
      conversas_privadas :=
        if scan.priv ≠ 0 then insert cid acc.conversas_privadas else acc.conversas_privadas
      allowed_conv_ids := insert cid acc.allowed_conv_ids
      message_rows := acc.message_rows ++ scan.rows }

/-- Summary statistics of the insights aggregation. -/
structure InsightsStats where
  total_conversas : Nat
  total_conversas_privadas : Nat
  total_recebidas : Nat
  total_enviadas : Nat
  total_privadas : Nat
  total_mensagens : Nat
  total_clientes_unicos : Nat
deriving DecidableEq, Repr

/-- Unique-contact key of a table row: the stripped phone, falling back to the
stripped name; blank contacts do not count. -/
def contactKeyOf (conv : Conversation) : Option String :=
  let phone := pyStrip (contactPhoneVal conv)
  if phone ≠ "" then some phone
  else
    let nm := pyStrip (contactNameVal conv)
    if nm ≠ "" then some nm else none

/-- The `message_statuses` normalisation (`or ["Todos"]`, then "Todos" clears
the filter). -/
def normalizedStatuses (statuses : List String) : List String :=
  let sel0 := if statuses.isEmpty then ["Todos"] else statuses
  if "Todos" ∈ sel0 then [] else sel0

/-- Model of the aggregation phase of `_build_insights_context`: strict and
relaxed filter passes, the per-conversation counting loop, the
conversation-type gate, the unique-contact count, and the sorted message table
with its sort keys popped.  `fetch` is the (frozen) message source and `order`
the order in which the per-conversation fetches complete. -/
def buildInsightsAggregate (cfg : BotConfig) (conversations : List Conversation)
    (filters : Filters) (nameMap : Int → Option String) (start_dt end_dt : Int)
    (fetch : Int → List Message) (order : List Int) : InsightsStats × List MsgRowPub :=
  let strict := collectConversationRows conversations filters start_dt end_dt true
  let relaxed := collectConversationRows conversations filters start_dt end_dt false
  let msgIds := relaxed.2
  let ctype := if filters.conversation_type = "" then "Todos" else filters.conversation_type
  let env : AggEnv :=
    { cfg := cfg, ctype := ctype, selStatuses := normalizedStatuses filters.message_statuses
      start_dt := start_dt, end_dt := end_dt, nameMap := nameMap
      conversations := conversations, msgIds := msgIds, fetch := fetch }
  let final := order.foldl (aggStep env) {}
  let rowsF :=
    if ctype ≠ "Todos" then
      strict.1.filter (fun c =>
        match convIdOf c with
        | some i => decide (i ∈ final.allowed_conv_ids)
        | none => false)
    else strict.1
  let uniqueClients := (rowsF.filterMap contactKeyOf).toFinset
  ({ total_conversas := rowsF.length
     total_conversas_privadas := final.conversas_privadas.card
     total_recebidas := final.total_recebidas
     total_enviadas := final.total_enviadas
     total_privadas := final.total_privadas
     total_mensagens := final.total_mensagens
     total_clientes_unicos := uniqueClients.card },
   (sortMsgRows final.message_rows).map MsgRow.toPub)

/-! ### Paginated conversation fetch -/

/-- Fuel-indexed loop of `_fetch_conversations`, also counting the page
requests issued.  The fuel starts at `max_pages`, mirroring
`while page <= max_pages`. -/
def fetchConversationsGo (source : Nat → List Conversation) (start_dt : Int) :
    Nat → Nat → List Conversation → Nat → List Conversation × Nat
  | 0, _, acc, reqs => (acc, reqs)
  | fuel + 1, page, acc, reqs =>
    let payload := source page
    if payload.isEmpty then (acc, reqs + 1)
    else
      let acc2 := acc ++ payload
      let lastRec := payload.getLastD {}
      match parseTs (pyOr lastRec.last_activity_at (pyOr lastRec.updated_at lastRec.created_at)) with
      | some t =>
        if t < start_dt then (acc2, reqs + 1)
        else fetchConversationsGo source start_dt fuel (page + 1) acc2 (reqs + 1)
      | none => fetchConversationsGo source start_dt fuel (page + 1) acc2 (reqs + 1)

/-- Model of `_fetch_conversations` over an abstract page source, returning the
accumulated records and the number of page requests. -/
def fetchConversationsMeasured (source : Nat → List Conversation) (start_dt : Int)
    (max_pages : Nat) : List Conversation × Nat :=
  fetchConversationsGo source start_dt max_pages 1 [] 0

/-- Number of page requests `_fetch_conversations` issues. -/
def fetchRequestCount (source : Nat → List Conversation) (start_dt : Int)
    (max_pages : Nat) : Nat :=
  (fetchConversationsMeasured source start_dt max_pages).2

/-- Staleness test on the last record of a page (stop when its activity
instant parses and is older than the start bound). -/
def pageIsStale (start_dt : Int) (payload : List Conversation) : Bool :=
  match parseTs (pyOr (payload.getLastD {}).last_activity_at
      (pyOr (payload.getLastD {}).updated_at (payload.getLastD {}).created_at)) with
  | some t => decide (t < start_dt)
  | none => false

/-! ### Rate-limit backoff -/

/-- HTTP response as seen by `_request_with_rate_limit`. -/
structure HttpResponse where
  status : Int
  retryAfter : Option String := none
deriving DecidableEq, Repr

/-- Model of `float(s)` for delay values, kept exact as a rational. -/
def floatOfStringRat (s : String) : Option Rat :=
  let cs := (pyStrip s).toList
  let signed : Bool × List Char :=
    match cs with
    | '-' :: rest => (true, rest)
    | '+' :: rest => (false, rest)
    | _ => (false, cs)
  let ip := signed.2.takeWhile (fun c => c ≠ '.')
  let rest := signed.2.dropWhile (fun c => c ≠ '.')
  let fr : Option (List Char) :=
    match rest with
    | [] => some []
    | '.' :: f => if f.all Char.isDigit then some f else none
    | _ => none
  match fr with
  | none => none
  | some f =>
    if (ip.all Char.isDigit) && (!ip.isEmpty || !f.isEmpty) then
      let v : Rat := mkRat (decValue ip * 10 ^ f.length + decValue f) (10 ^ f.length)
      some (if signed.1 then -v else v)
    else none

/-- Backoff delay for one 429 attempt: the parseable `Retry-After` header when
present (empty header is falsy), else `base_delay * 2 ** attempt`. -/
def backoffDelay (baseDelay : Rat) (attempt : Nat) (resp : HttpResponse) : Rat :=
  let parsed : Option Rat :=
    match resp.retryAfter with
    | some s => if s = "" then none else floatOfStringRat s
    | none => none
  match parsed with
  | some d => d
  | none => baseDelay * 2 ^ attempt

/-- Fuel-indexed loop of `_request_with_rate_limit`, recording each sleep
(backoff delay plus that attempt's jitter draw). -/
def rateLimitGo (responses : Nat → HttpResponse) (jitter : Nat → Rat) (baseDelay : Rat) :
    Nat → Nat → List Rat → HttpResponse × List Rat
  | 0, attempt, delays => (responses (attempt - 1), delays)
  | fuel + 1, attempt, delays =>
    let resp := responses attempt
    if resp.status ≠ 429 then (resp, delays)
    else rateLimitGo responses jitter baseDelay fuel (attempt + 1)
      (delays ++ [backoffDelay baseDelay attempt resp + jitter attempt])

/-- Model of `_request_with_rate_limit` over an abstract response sequence
(the transport-level retry wrapper is abstracted as the `responses` oracle,
`jitter` as the `random.uniform(0, 0.3)` draws): the returned response and the
sleeps performed. -/
def requestWithRateLimit (responses : Nat → HttpResponse) (jitter : Nat → Rat)
    (rateLimitRetries : Nat) (baseDelay : Rat) : HttpResponse × List Rat :=
  rateLimitGo responses jitter baseDelay (rateLimitRetries + 1) 0 []

/-- Status check `_fetch_conversations` applies to the response it gets back
(HTTP status ≥ 400 raises a `RuntimeError` to the caller). -/
def conversationsStatusCheck (resp : HttpResponse) : Except String HttpResponse :=
  if resp.status ≥ 400 then .error "Chatwoot respondeu erro ao listar conversas" else .ok resp

/-! ### Insights context sampling -/

/-- Cleaned, truncated content of one sampled message line (newlines replaced,
stripped, truncated at 240 characters with an ellipsis marker). -/
def sampleContent (r : MsgRow) : String :=
  let content := pyStrip (replaceChar r.mensagem '\n' " ")
  if content.length > 240 then pyTake content 240 ++ "..." else content

/-- One rendered sample line of the insights context document. -/
def sampleLine (r : MsgRow) : String :=
  "- [" ++ pyStr r.status_mensagem ++ "] conv " ++ toString r.id_conversa ++ " | " ++
    r.autor ++ " | " ++ r.data_hora_mensagem ++ " | " ++ sampleContent r

/-- Loop of the sampling phase: processes rows while the message-count and
character-budget caps both hold (the budget is checked before appending). -/
def sampleGo (maxMessages maxChars : Nat) :
    List MsgRow → Nat → Nat → List String → List String × Nat
  | [], count, _, lines => (lines, count)
  | r :: rest, count, totalChars, lines =>
    if count ≥ maxMessages ∨ totalChars ≥ maxChars then (lines, count)
    else
      let line := sampleLine r
      sampleGo maxMessages maxChars rest (count + 1) (totalChars + line.length) (lines ++ [line])

/-- Model of the message-sampling phase of `_build_insights_context`: the
sample lines and the number of sampled messages. -/
def buildSample (rows : List MsgRow) (maxMessages maxChars : Nat) : List String × Nat :=
  sampleGo maxMessages maxChars rows 0 0 []

/-- The "N omitted" footer, appended exactly when the sample is truncated. -/
def sampleFooter (rows : List MsgRow) (maxMessages maxChars : Nat) : List String :=
  let s := buildSample rows maxMessages maxChars
  if s.2 < rows.length then ["... (" ++ toString (rows.length - s.2) ++ " mensagens omitidas)"]
  else []

/-! ### Decimal rendering (for `str(conversation_id)` in the sort key) -/

/-- Decimal digit list of a natural number, most significant first. -/
def decDigits (n : Nat) : List Char :=
  if n < 10 then [Nat.digitChar n]
  else decDigits (n / 10) ++ [Nat.digitChar (n % 10)]
termination_by n
decreasing_by exact Nat.div_lt_self (by omega) (by omega)

/-! ### Statement-level helper predicates -/

/-- Survivor of the date-window and message-status filters that is outgoing
and bot-classified: the evidence that makes a conversation "Bot". -/
def msgIsBotOutgoing (cfg : BotConfig) (selStatuses : List String) (start_dt end_dt : Int)
    (m : Message) : Bool :=
  msgInWindow start_dt end_dt m && msgStatusOk selStatuses m &&
    (messageDirection m == some "outgoing") && isBotSender cfg m

/-- Survivor that is outgoing and agent-classified (and not bot-classified,
matching the `elif` in the source): the evidence that makes a conversation
"Agente". -/
def msgIsAgentOutgoing (cfg : BotConfig) (selStatuses : List String) (start_dt end_dt : Int)
    (m : Message) : Bool :=
  msgInWindow start_dt end_dt m && msgStatusOk selStatuses m &&
    (messageDirection m == some "outgoing") && !isBotSender cfg m && isAgentSender cfg m

/-- Sleep performed for the `j`-th attempt of the rate-limit loop. -/
def delayAt (responses : Nat → HttpResponse) (jitter : Nat → Rat) (baseDelay : Rat)
    (j : Nat) : Rat :=
  backoffDelay baseDelay j (responses j) + jitter j

/-- Sleeps performed for the first `k` attempts. -/
def delaysUpTo (responses : Nat → HttpResponse) (jitter : Nat → Rat) (baseDelay : Rat)
    (k : Nat) : List Rat :=
  (List.range k).map (delayAt responses jitter baseDelay)

/-- Two row lists whose sort keys never collide. -/
def rowsKeyDisjoint (A B : List MsgRow) : Prop :=
  ∀ a ∈ A, ∀ b ∈ B, rowSortKey a ≠ rowSortKey b

/-- Compatibility of two message-row blocks for the stable sort: equal blocks,
or blocks whose keys never collide. -/
def blockCompat (A B : List MsgRow) : Prop := A = B ∨ rowsKeyDisjoint A B

/-! ## Theorems -/

/-- C5: `_parse_ts` never lets an exception escape (every branch of `parseTsE`
returns `.ok`): `None` yields absence, a numeric inside the representable
range is taken as UTC epoch seconds, an ISO-8601 string with a trailing `Z`
parses as a UTC instant, a numeric string falls back to the epoch parse, and
an unparseable string yields absence rather than an error. -/
theorem parseTs_never_raises :
    (∀ v : PyVal, ∃ r, parseTsE v = Except.ok r) ∧
    parseTs PyVal.none = none ∧
    (∀ n : Int, pyDatetimeMin ≤ n → n ≤ pyDatetimeMax → parseTs (.int n) = some n) ∧
    parseTs (.str "2024-01-01T00:00:00Z") = some 1704067200 ∧
    parseTs (.str "1704067200") = some 1704067200 ∧
    parseTs (.str "not a date") = none := by
  refine ⟨?_, rfl, ?_, by decide, by decide, by decide⟩
  · intro v
    cases v with
    | none => exact ⟨none, rfl⟩
    | int n =>
      cases h : fromtimestampE n with
      | ok d => exact ⟨some d, by simp [parseTsE, h]⟩
      | error e => exact ⟨none, by simp [parseTsE, h]⟩
    | bool b =>
      cases h : fromtimestampE (if b then 1 else 0) with
      | ok d => exact ⟨some d, by simp [parseTsE, h]⟩
      | error e => exact ⟨none, by simp [parseTsE, h]⟩
    | str s =>
      cases h1 : fromisoformatE (replaceChar s 'Z' "+00:00") with
      | ok d => exact ⟨some d, by simp [parseTsE, h1]⟩
      | error e1 =>
        cases h2 : floatOfStringE s with
        | ok v2 =>
          cases h3 : fromtimestampE v2 with
          | ok d => exact ⟨some d, by simp [parseTsE, h1, h2, h3]⟩
          | error e3 => exact ⟨none, by simp [parseTsE, h1, h2, h3]⟩
        | error e2 => exact ⟨none, by simp [parseTsE, h1, h2]⟩
  · intro n h1 h2
    simp [parseTs, parseTsE, fromtimestampE, h1, h2]

/-- Witness for C5: the numeric branch at the concrete epoch value 5. -/
theorem parseTs_never_raises_witness : parseTs (.int 5) = some 5 :=
  parseTs_never_raises.2.2.1 5 (by decide) (by decide)

/-- C4 counterexample: `_is_agent_sender` never examines the message
direction — a message whose direction is incoming but whose sender-type is
"user" is still classified as an agent sender, refuting the claim's "only if
the direction is outgoing". -/
theorem isAgentSender_direction_counterexample :
    isAgentSender {} { message_type := .int 0, sender_type := some "user" } = true ∧
    messageDirection { message_type := .int 0, sender_type := some "user" } = some "incoming" := by
  decide

/-- C4 (amended): `_is_agent_sender` returns true iff the resolved sender-type
is "user" or "agent" and the message is not classified as a bot sender; the
message direction is not consulted (callers gate on direction separately). -/
theorem isAgentSender_iff (cfg : BotConfig) (m : Message) :
    isAgentSender cfg m = true ↔
      (messageSenderType m = "user" ∨ messageSenderType m = "agent") ∧
        isBotSender cfg m = false := by
  unfold isAgentSender
  cases h : isBotSender cfg m <;> simp [h]

/-- C2: under one filter configuration the strict (date-enforced) pass's
conversation-id list is contained in the relaxed pass's; both passes run the
same non-temporal guard chain, the strict pass merely conjoining the
creation-window test as its final guard; a conversation with an unparseable
`created_at` always fails the strict pass yet can appear in the relaxed pass
(witnessed concretely in the last component). -/
theorem collect_strict_subset_relaxed :
    (∀ (convs : List Conversation) (f : Filters) (s e i : Int),
      i ∈ (collectConversationRows convs f s e true).2 →
      i ∈ (collectConversationRows convs f s e false).2) ∧
    (∀ (f : Filters) (s e : Int) (conv : Conversation),
      convPasses f s e false conv = convPassesNonTemporal f conv) ∧
    (∀ (f : Filters) (s e : Int) (conv : Conversation),
      convPasses f s e true conv =
        (convPassesNonTemporal f conv && createdInRange s e conv)) ∧
    (∀ (f : Filters) (s e : Int) (conv : Conversation),
      parseTs conv.created_at = none → convPasses f s e true conv = false) ∧
    (parseTs (PyVal.str "not-a-date") = none ∧
      (collectConversationRows [{ id := some 7, created_at := .str "not-a-date" }]
          {} 0 10 false).2 = [7] ∧
      (collectConversationRows [{ id := some 7, created_at := .str "not-a-date" }]
          {} 0 10 true).2 = []) := by
  refine ⟨?_, ?_, ?_, ?_, by decide, by decide, by decide⟩
  · intro convs f s e i hi
    simp only [collectConversationRows, List.mem_filterMap, List.mem_filter] at hi ⊢
    obtain ⟨c, ⟨hc, hp⟩, hid⟩ := hi
    refine ⟨c, ⟨hc, ?_⟩, hid⟩
    simp only [convPasses, Bool.and_eq_true] at hp ⊢
    exact ⟨hp.1, by simp⟩
  · intro f s e conv
    simp [convPasses]
  · intro f s e conv
    simp [convPasses]
  · intro f s e conv h
    simp [convPasses, createdInRange, h]

/-- Witness for C2: the subset direction applied on a one-conversation list
whose record passes the strict pass. -/
theorem collect_strict_subset_relaxed_witness :
    (5 : Int) ∈ (collectConversationRows [{ id := some 5, created_at := PyVal.int 3 }]
      {} 0 10 false).2 :=
  collect_strict_subset_relaxed.1 [{ id := some 5, created_at := PyVal.int 3 }] {} 0 10 5
    (by decide)

/-- C3 counterexample: the digit-string "00" is none of the values the claim
recognizes (and not a case variant of "incoming"/"outgoing"), yet
`_message_direction` classifies it as incoming rather than unknown. -/
theorem messageDirection_digit_string_counterexample :
    messageDirection { message_type := .str "00" } = some "incoming" ∧
    PyVal.str "00" ∉
      ([.int 0, .int 1, .str "0", .str "1", .str "incoming", .str "outgoing"] : List PyVal) ∧
    pyLower "00" ≠ "incoming" ∧ pyLower "00" ≠ "outgoing" := by
  decide

/-- C3 (amended): `_message_direction` maps integer code 0 to incoming and 1
to outgoing (Python booleans acting as their integer values), any pure
digit-string whose decimal value is 0 or 1 — not only the literal "0"/"1" — to
the corresponding direction, and "incoming"/"outgoing" case-insensitively to
themselves; every other value yields unknown (`none`), and a message of
unknown direction increments neither the received nor the sent counter of the
aggregation loop. -/
theorem messageDirection_cases_and_counters :
    (∀ m : Message, m.message_type = .int 0 → messageDirection m = some "incoming") ∧
    (∀ m : Message, m.message_type = .int 1 → messageDirection m = some "outgoing") ∧
    (∀ (m : Message) (n : Int), m.message_type = .int n → n ≠ 0 → n ≠ 1 →
      messageDirection m = none) ∧
    (∀ (m : Message) (b : Bool), m.message_type = .bool b →
      messageDirection m = some (if b then "outgoing" else "incoming")) ∧
    (∀ m : Message, m.message_type = .none → messageDirection m = none) ∧
    (∀ (m : Message) (s : String), m.message_type = .str s → pyLower s ≠ "" →
      (pyLower s).toList.all Char.isDigit = true →
      messageDirection m =
        (if decValue (pyLower s).toList = 0 then some "incoming"
         else if decValue (pyLower s).toList = 1 then some "outgoing" else none)) ∧
    (∀ (m : Message) (s : String), m.message_type = .str s →
      ¬(pyLower s ≠ "" ∧ (pyLower s).toList.all Char.isDigit = true) →
      pyLower s ≠ "incoming" → pyLower s ≠ "outgoing" → messageDirection m = none) ∧
    (∀ (m : Message) (s : String), m.message_type = .str s →
      pyLower s = "incoming" ∨ pyLower s = "outgoing" →
      messageDirection m = some (pyLower s)) ∧
    (∀ (cfg : BotConfig) (ctype : String) (sel : List String) (s e : Int) (info : ConvInfo)
        (cid : Int) (addRows : Bool) (acc : ConvScan) (m : Message),
      messageDirection m = none →
      (scanStep cfg ctype sel s e info cid addRows acc m).received = acc.received ∧
      (scanStep cfg ctype sel s e info cid addRows acc m).sent = acc.sent) := by
  refine ⟨?_, ?_, ?_, ?_, ?_, ?_, ?_, ?_, ?_⟩
  · intro m h; simp [messageDirection, h]
  · intro m h; simp [messageDirection, h]
  · intro m n h h0 h1; simp [messageDirection, h, h0, h1]
  · intro m b h; cases b <;> simp [messageDirection, h]
  · intro m h; simp only [messageDirection, h]; decide
  · intro m s h hne hdig
    simp only [messageDirection, h, pyStr]
    rw [if_pos ⟨hne, hdig⟩]
  · intro m s h hnd hni hno
    simp only [messageDirection, h, pyStr]
    rw [if_neg hnd, if_neg (by simp [hni, hno])]
  · intro m s h hio
    have hnd : ¬(pyLower s ≠ "" ∧ (pyLower s).toList.all Char.isDigit = true) := by
      rcases hio with h1 | h1 <;> rw [h1] <;> decide
    simp only [messageDirection, h, pyStr]
    rw [if_neg hnd, if_pos hio]
  · intro cfg ctype sel s e info cid addRows acc m hdir
    unfold scanStep scanFlagsUpdate scanPrivUpdate scanDirCounters scanRowAppend
    simp only [hdir]
    split_ifs <;> simp_all

/-- Request-count bound of the fetch loop: each fuel step issues at most one
page request. -/
theorem fetchGo_reqs_le (source : Nat → List Conversation) (start_dt : Int) :
    ∀ (fuel page : Nat) (acc : List Conversation) (reqs : Nat),
      (fetchConversationsGo source start_dt fuel page acc reqs).2 ≤ reqs + fuel := by
  intro fuel
  induction fuel with
  | zero => intro page acc reqs; simp [fetchConversationsGo]
  | succ f ih =>
    intro page acc reqs
    rw [fetchConversationsGo]
    cases h1 : (source page).isEmpty with
    | true => simp
    | false =>
      simp only [h1, Bool.false_eq_true, if_false]
      cases hp : parseTs (pyOr ((source page).getLastD {}).last_activity_at
          (pyOr ((source page).getLastD {}).updated_at ((source page).getLastD {}).created_at)) with
      | none => exact le_trans (ih (page + 1) (acc ++ source page) (reqs + 1)) (by omega)
      | some t =>
        by_cases ht : t < start_dt
        · simp only [ht, if_true]; omega
        · simp only [ht, if_false]
          exact le_trans (ih (page + 1) (acc ++ source page) (reqs + 1)) (by omega)

/-- Progress property of the fetch loop: if the run issued strictly more than
`k` requests (pages are numbered from 1 and `reqs` counts the pages already
requested, i.e. `page - 1`), then page `k` was non-empty and not stale. -/
theorem fetchGo_progress (source : Nat → List Conversation) (start_dt : Int) :
    ∀ (fuel page : Nat) (acc : List Conversation) (reqs k : Nat), page ≤ k →
      reqs + (k - page) + 2 ≤ (fetchConversationsGo source start_dt fuel page acc reqs).2 →
      source k ≠ [] ∧ pageIsStale start_dt (source k) = false := by
  intro fuel
  induction fuel with
  | zero => intro page acc reqs k hpk hle; simp [fetchConversationsGo] at hle; omega
  | succ f ih =>
    intro page acc reqs k hpk hle
    rw [fetchConversationsGo] at hle
    cases h1 : (source page).isEmpty with
    | true => rw [h1] at hle; simp at hle; omega
    | false =>
      rw [h1] at hle
      simp only [Bool.false_eq_true, if_false] at hle
      cases hp : parseTs (pyOr ((source page).getLastD {}).last_activity_at
          (pyOr ((source page).getLastD {}).updated_at
            ((source page).getLastD {}).created_at)) with
      | none =>
        rw [hp] at hle
        by_cases hk : page = k
        · subst hk
          refine ⟨by simpa [List.isEmpty_iff] using h1, ?_⟩
          unfold pageIsStale
          rw [hp]
        · exact ih (page + 1) (acc ++ source page) (reqs + 1) k (by omega)
            (le_trans (by omega) hle)
      | some t =>
        rw [hp] at hle
        by_cases ht : t < start_dt
        · simp only [ht, if_true] at hle; simp at hle; omega
        · simp only [ht, if_false] at hle
          by_cases hk : page = k
          · subst hk
            refine ⟨by simpa [List.isEmpty_iff] using h1, ?_⟩
            unfold pageIsStale
            rw [hp]
            simp [ht]
          · exact ih (page + 1) (acc ++ source page) (reqs + 1) k (by omega)
              (le_trans (by omega) hle)

/-- C6: `_fetch_conversations` issues at most `max_pages` page requests; a
further page is requested only while pages stay non-empty and their last
record is not older than the start bound; and on a source whose first page's
last record is already older than the start bound it stops after a single
request, well short of the source's 30-page cap. -/
theorem fetchConversations_termination :
    (∀ (source : Nat → List Conversation) (start_dt : Int) (max_pages : Nat),
      fetchRequestCount source start_dt max_pages ≤ max_pages) ∧
    (∀ (source : Nat → List Conversation) (start_dt : Int) (max_pages k : Nat), 1 ≤ k →
      k + 1 ≤ fetchRequestCount source start_dt max_pages →
      source k ≠ [] ∧ pageIsStale start_dt (source k) = false) ∧
    (fetchRequestCount (fun _ => [{ id := some 1, last_activity_at := .int (-100) }]) 0 30 = 1 ∧
      (1 : Nat) < 30) := by
  refine ⟨?_, ?_, by decide, by decide⟩
  · intro source start_dt max_pages
    simpa using fetchGo_reqs_le source start_dt max_pages 1 [] 0
  · intro source start_dt max_pages k hk hle
    have hr : fetchRequestCount source start_dt max_pages =
        (fetchConversationsGo source start_dt max_pages 1 [] 0).2 := rfl
    rw [hr] at hle
    exact fetchGo_progress source start_dt max_pages 1 [] 0 k (by omega) (by omega)

/-- Witness for C6: a two-page source followed by an empty page issues three
requests, so page 2 is reported non-empty and fresh. -/
theorem fetchConversations_termination_witness :
    (fun p => if p ≤ 2 then [{ id := some 1, created_at := PyVal.int 5 }]
      else ([] : List Conversation)) 2 ≠ [] ∧
    pageIsStale 0 ((fun p => if p ≤ 2 then [{ id := some 1, created_at := PyVal.int 5 }]
      else ([] : List Conversation)) 2) = false :=
  fetchConversations_termination.2.1
    (fun p => if p ≤ 2 then [{ id := some 1, created_at := PyVal.int 5 }] else [])
    0 30 2 (by decide) (by decide)

/-- Unfolding of the cumulative delay list. -/
theorem delaysUpTo_succ (responses : Nat → HttpResponse) (jitter : Nat → Rat) (baseDelay : Rat)
    (k : Nat) :
    delaysUpTo responses jitter baseDelay (k + 1) =
      delaysUpTo responses jitter baseDelay k ++ [delayAt responses jitter baseDelay k] := by
  simp [delaysUpTo, List.range_succ]

/-- First-success characterisation of the rate-limit loop: starting at
`attempt` with the delays already slept, if the first non-429 within the fuel
budget is at index `k`, the loop returns it along with the first `k` sleeps. -/
theorem rateLimitGo_first_success (responses : Nat → HttpResponse) (jitter : Nat → Rat)
    (baseDelay : Rat) :
    ∀ (fuel attempt k : Nat), attempt ≤ k → k < attempt + fuel →
      (responses k).status ≠ 429 → (∀ j, attempt ≤ j → j < k → (responses j).status = 429) →
      rateLimitGo responses jitter baseDelay fuel attempt
          (delaysUpTo responses jitter baseDelay attempt) =
        (responses k, delaysUpTo responses jitter baseDelay k) := by
  intro fuel
  induction fuel with
  | zero => intro attempt k h1 h2 _ _; omega
  | succ f ih =>
    intro attempt k h1 h2 hk hall
    rw [rateLimitGo]
    by_cases ha : attempt = k
    · subst ha
      rw [if_pos hk]
    · have h429 : (responses attempt).status = 429 := hall attempt le_rfl (by omega)
      rw [if_neg (by simp [h429])]
      have hstep : delaysUpTo responses jitter baseDelay attempt ++
          [backoffDelay baseDelay attempt (responses attempt) + jitter attempt] =
          delaysUpTo responses jitter baseDelay (attempt + 1) :=
        (delaysUpTo_succ responses jitter baseDelay attempt).symm
      rw [hstep]
      exact ih (attempt + 1) k (by omega) (by omega) hk (fun j hj1 hj2 => hall j (by omega) hj2)

/-- All-429 characterisation of the rate-limit loop: when every attempt in the
budget answers 429, the loop returns the last 429 after sleeping once per
attempt. -/
theorem rateLimitGo_all429 (responses : Nat → HttpResponse) (jitter : Nat → Rat)
    (baseDelay : Rat) :
    ∀ (fuel attempt : Nat),
      (∀ j, attempt ≤ j → j < attempt + fuel → (responses j).status = 429) →
      rateLimitGo responses jitter baseDelay fuel attempt
          (delaysUpTo responses jitter baseDelay attempt) =
        (responses (attempt + fuel - 1), delaysUpTo responses jitter baseDelay (attempt + fuel)) := by
  intro fuel
  induction fuel with
  | zero => intro attempt _; rw [rateLimitGo]; simp
  | succ f ih =>
    intro attempt hall
    rw [rateLimitGo]
    have h429 : (responses attempt).status = 429 := hall attempt le_rfl (by omega)
    rw [if_neg (by simp [h429])]
    have hstep : delaysUpTo responses jitter baseDelay attempt ++
        [backoffDelay baseDelay attempt (responses attempt) + jitter attempt] =
        delaysUpTo responses jitter baseDelay (attempt + 1) :=
      (delaysUpTo_succ responses jitter baseDelay attempt).symm
    rw [hstep]
    have := ih (attempt + 1) (fun j hj1 hj2 => hall j (by omega) (by omega))
    rw [this]
    have harg1 : attempt + 1 + f - 1 = attempt + (f + 1) - 1 := by omega
    have harg2 : attempt + 1 + f = attempt + (f + 1) := by omega
    rw [harg1, harg2]

/-- Delay-list shape of the rate-limit loop: whatever the statuses, the sleeps
performed form an initial segment of the per-attempt delay sequence. -/
theorem rateLimitGo_delays_shape (responses : Nat → HttpResponse) (jitter : Nat → Rat)
    (baseDelay : Rat) :
    ∀ (fuel attempt : Nat), ∃ r, attempt ≤ r ∧
      (rateLimitGo responses jitter baseDelay fuel attempt
          (delaysUpTo responses jitter baseDelay attempt)).2 =
        delaysUpTo responses jitter baseDelay r := by
  intro fuel
  induction fuel with
  | zero => intro attempt; exact ⟨attempt, le_rfl, by rw [rateLimitGo]⟩
  | succ f ih =>
    intro attempt
    rw [rateLimitGo]
    by_cases hs : (responses attempt).status ≠ 429
    · exact ⟨attempt, le_rfl, by rw [if_pos hs]⟩
    · rw [if_neg hs]
      have hstep : delaysUpTo responses jitter baseDelay attempt ++
          [backoffDelay baseDelay attempt (responses attempt) + jitter attempt] =
          delaysUpTo responses jitter baseDelay (attempt + 1) :=
        (delaysUpTo_succ responses jitter baseDelay attempt).symm
      rw [hstep]
      obtain ⟨r, hr1, hr2⟩ := ih (attempt + 1)
      exact ⟨r, by omega, hr2⟩

/-- With no `Retry-After` honoured, base delay 1.5 and jitter draws inside
`[0, 0.3]`, the per-attempt delay sequence is non-decreasing. -/
theorem delaysUpTo_chain (responses : Nat → HttpResponse) (jitter : Nat → Rat)
    (hRA : ∀ j, (responses j).retryAfter = none)
    (hj : ∀ j, 0 ≤ jitter j ∧ jitter j ≤ 3 / 10) (r : Nat) :
    List.Chain' (· ≤ ·) (delaysUpTo responses jitter (3 / 2) r) := by
  rw [List.chain'_iff_get]
  intro i hi
  simp only [delaysUpTo, List.length_map, List.length_range] at hi
  simp only [delaysUpTo, List.get_eq_getElem, List.getElem_map, List.getElem_range]
  have hd : ∀ j, delayAt responses jitter (3 / 2) j = 3 / 2 * 2 ^ j + jitter j := by
    intro j
    simp [delayAt, backoffDelay, hRA j]
  rw [hd i, hd (i + 1)]
  have hp : (1 : Rat) ≤ 2 ^ i := one_le_pow₀ (by norm_num)
  have hsucc : (2 : Rat) ^ (i + 1) = 2 ^ i * 2 := pow_succ 2 i
  have hji := hj i
  have hji1 := hj (i + 1)
  rw [hsucc]
  nlinarith [hji.1, hji.2, hji1.1, hji1.2, hp]

/-- C7 (amended): `_request_with_rate_limit` returns the first non-429
response arriving within the retry budget, after sleeping once per 429; each
sleep is the parseable `Retry-After` value when that header is present, else
`base_delay * 2 ** attempt`, plus the attempt's jitter draw; with no
`Retry-After` honoured (and jitter inside `[0, 0.3]`) the successive sleeps
are non-decreasing — with `Retry-After` they may decrease; and when every
attempt answers 429 the last 429 response is returned and fails the caller's
HTTP-status check as a fatal error.  On three 429s followed by a 200 the 200
is returned. -/
theorem requestWithRateLimit_behaviour :
    (∀ (responses : Nat → HttpResponse) (jitter : Nat → Rat) (retries : Nat) (baseDelay : Rat)
        (k : Nat), k ≤ retries →
      (responses k).status ≠ 429 → (∀ j, j < k → (responses j).status = 429) →
      requestWithRateLimit responses jitter retries baseDelay =
        (responses k, delaysUpTo responses jitter baseDelay k)) ∧
    (∀ (responses : Nat → HttpResponse) (jitter : Nat → Rat) (retries : Nat) (baseDelay : Rat),
      (∀ j, j ≤ retries → (responses j).status = 429) →
      requestWithRateLimit responses jitter retries baseDelay =
        (responses retries, delaysUpTo responses jitter baseDelay (retries + 1)) ∧
      ∃ msg, conversationsStatusCheck
          (requestWithRateLimit responses jitter retries baseDelay).1 = Except.error msg) ∧
    (∀ (baseDelay : Rat) (attempt : Nat) (resp : HttpResponse) (s : String) (v : Rat),
      resp.retryAfter = some s → s ≠ "" → floatOfStringRat s = some v →
      backoffDelay baseDelay attempt resp = v) ∧
    (∀ (baseDelay : Rat) (attempt : Nat) (resp : HttpResponse), resp.retryAfter = none →
      backoffDelay baseDelay attempt resp = baseDelay * 2 ^ attempt) ∧
    (∀ (responses : Nat → HttpResponse) (jitter : Nat → Rat) (retries : Nat),
      (∀ j, (responses j).retryAfter = none) → (∀ j, 0 ≤ jitter j ∧ jitter j ≤ 3 / 10) →
      List.Chain' (· ≤ ·) (requestWithRateLimit responses jitter retries (3 / 2)).2) ∧
    ((requestWithRateLimit (fun n => if n < 3 then { status := 429 } else { status := 200 })
        (fun _ => 0) 3 (3 / 2)).1.status = 200) := by
  have hzero : ∀ (responses : Nat → HttpResponse) (jitter : Nat → Rat) (baseDelay : Rat),
      delaysUpTo responses jitter baseDelay 0 = [] := by
    intro responses jitter baseDelay; simp [delaysUpTo]
  refine ⟨?_, ?_, ?_, ?_, ?_, by decide⟩
  · intro responses jitter retries baseDelay k hk hnk hall
    have h := rateLimitGo_first_success responses jitter baseDelay (retries + 1) 0 k
      (by omega) (by omega) hnk (fun j _ hj => hall j hj)
    rw [hzero responses jitter baseDelay] at h
    rw [requestWithRateLimit]
    exact h
  · intro responses jitter retries baseDelay hall
    have h := rateLimitGo_all429 responses jitter baseDelay (retries + 1) 0
      (fun j _ hj => hall j (by omega))
    rw [hzero responses jitter baseDelay] at h
    have e1 : 0 + (retries + 1) - 1 = retries := by omega
    have e2 : 0 + (retries + 1) = retries + 1 := by omega
    rw [e1, e2] at h
    have hmain : requestWithRateLimit responses jitter retries baseDelay =
        (responses retries, delaysUpTo responses jitter baseDelay (retries + 1)) := by
      rw [requestWithRateLimit]; exact h
    refine ⟨hmain, "Chatwoot respondeu erro ao listar conversas", ?_⟩
    rw [hmain]
    simp [conversationsStatusCheck, hall retries le_rfl]
  · intro baseDelay attempt resp s v hra hs hv
    simp [backoffDelay, hra, hs, hv]
  · intro baseDelay attempt resp hra
    simp [backoffDelay, hra]
  · intro responses jitter retries hRA hj
    obtain ⟨r, _, hr⟩ := rateLimitGo_delays_shape responses jitter (3 / 2) (retries + 1) 0
    rw [hzero responses jitter (3 / 2)] at hr
    rw [requestWithRateLimit, hr]
    exact delaysUpTo_chain responses jitter hRA hj r

/-- Witness for C7: one 429 followed by a 200 returns the 200 after a single
sleep. -/
theorem requestWithRateLimit_behaviour_witness :
    requestWithRateLimit
        (fun n => if n = 0 then { status := 429 } else { status := 200 })
        (fun _ => 0) 3 (3 / 2) =
      ((fun n : Nat => if n = 0 then ({ status := 429 } : HttpResponse)
          else { status := 200 }) 1,
        delaysUpTo (fun n => if n = 0 then { status := 429 } else { status := 200 })
          (fun _ => 0) (3 / 2) 1) :=
  requestWithRateLimit_behaviour.1
    (fun n => if n = 0 then { status := 429 } else { status := 200 })
    (fun _ => 0) 3 (3 / 2) 1 (by decide) (by decide)
    (fun j hj => by
      have hj0 : j = 0 := by omega
      subst hj0
      decide)

/-- C7 counterexample: with `Retry-After` headers "10" then "1" (and legal
zero jitter draws inside the `uniform(0, 0.3)` range) the two successive
sleeps decrease, refuting the claim's unconditional non-decreasing
guarantee. -/
theorem requestWithRateLimit_delays_counterexample :
    (requestWithRateLimit
        (fun n => if n = 0 then { status := 429, retryAfter := some "10" }
          else if n = 1 then { status := 429, retryAfter := some "1" }
          else { status := 200 })
        (fun _ => 0) 3 (3 / 2)).2 = [10, 1] ∧
    ¬ ((10 : Rat) ≤ 1) ∧ (0 : Rat) ≤ 0 ∧ (0 : Rat) ≤ 3 / 10 := by
  refine ⟨?_, by norm_num, le_rfl, by norm_num⟩
  have h := rateLimitGo_first_success
    (fun n => if n = 0 then { status := 429, retryAfter := some "10" }
      else if n = 1 then { status := 429, retryAfter := some "1" }
      else { status := 200 })
    (fun _ => 0) (3 / 2) 4 0 2 (by omega) (by omega) (by decide)
    (fun j hj1 hj2 => by interval_cases j <;> decide)
  have h0 : delaysUpTo
      (fun n => if n = 0 then { status := 429, retryAfter := some "10" }
        else if n = 1 then { status := 429, retryAfter := some "1" }
        else { status := 200 })
      (fun _ => 0) (3 / 2) 0 = [] := by simp [delaysUpTo]
  rw [h0] at h
  have hmain : (requestWithRateLimit
      (fun n => if n = 0 then { status := 429, retryAfter := some "10" }
        else if n = 1 then { status := 429, retryAfter := some "1" }
        else { status := 200 })
      (fun _ => 0) 3 (3 / 2)).2 = delaysUpTo
        (fun n => if n = 0 then { status := 429, retryAfter := some "10" }
          else if n = 1 then { status := 429, retryAfter := some "1" }
          else { status := 200 })
        (fun _ => 0) (3 / 2) 2 := by
    rw [requestWithRateLimit, h]
  rw [hmain]
  have hf10 : floatOfStringRat "10" = some 10 := by decide
  have hf1 : floatOfStringRat "1" = some 1 := by decide
  have hb0 : backoffDelay (3 / 2) 0
      ({ status := 429, retryAfter := some "10" } : HttpResponse) = 10 := by
    simp [backoffDelay, hf10]
  have hb1 : backoffDelay (3 / 2) 1
      ({ status := 429, retryAfter := some "1" } : HttpResponse) = 1 := by
    simp [backoffDelay, hf1]
  have hrange : List.range 2 = [0, 1] := by decide
  simp only [delaysUpTo, hrange, List.map_cons, List.map_nil, delayAt]
  norm_num [hb0, hb1]

/-- The sampled-message count never decreases. -/
theorem sampleGo_count_mono (mm mc : Nat) :
    ∀ (rows : List MsgRow) (count total : Nat) (lines : List String),
      count ≤ (sampleGo mm mc rows count total lines).2 := by
  intro rows
  induction rows with
  | nil => intro count total lines; simp [sampleGo]
  | cons r rest ih =>
    intro count total lines
    rw [sampleGo]
    by_cases h : count ≥ mm ∨ total ≥ mc
    · rw [if_pos h]
    · rw [if_neg h]
      exact le_trans (by omega) (ih (count + 1) (total + (sampleLine r).length)
        (lines ++ [sampleLine r]))

/-- The sampled-message count respects the message cap. -/
theorem sampleGo_count_le (mm mc : Nat) :
    ∀ (rows : List MsgRow) (count total : Nat) (lines : List String), count ≤ mm →
      (sampleGo mm mc rows count total lines).2 ≤ mm := by
  intro rows
  induction rows with
  | nil => intro count total lines h; simpa [sampleGo] using h
  | cons r rest ih =>
    intro count total lines h
    rw [sampleGo]
    by_cases hstop : count ≥ mm ∨ total ≥ mc
    · rw [if_pos hstop]; exact h
    · rw [if_neg hstop]
      exact ih (count + 1) (total + (sampleLine r).length) (lines ++ [sampleLine r]) (by omega)

/-- The produced lines are the renderings of the first `count` rows. -/
theorem sampleGo_lines_eq (mm mc : Nat) :
    ∀ (rows : List MsgRow) (count total : Nat) (lines : List String),
      (sampleGo mm mc rows count total lines).1 =
        lines ++ (rows.take ((sampleGo mm mc rows count total lines).2 - count)).map sampleLine := by
  intro rows
  induction rows with
  | nil => intro count total lines; simp [sampleGo]
  | cons r rest ih =>
    intro count total lines
    rw [sampleGo]
    by_cases hstop : count ≥ mm ∨ total ≥ mc
    · rw [if_pos hstop]; simp
    · rw [if_neg hstop]
      have hmono := sampleGo_count_mono mm mc rest (count + 1)
        (total + (sampleLine r).length) (lines ++ [sampleLine r])
      have heq := ih (count + 1) (total + (sampleLine r).length) (lines ++ [sampleLine r])
      rw [heq]
      have hk : (sampleGo mm mc rest (count + 1) (total + (sampleLine r).length)
          (lines ++ [sampleLine r])).2 - count =
          ((sampleGo mm mc rest (count + 1) (total + (sampleLine r).length)
            (lines ++ [sampleLine r])).2 - (count + 1)) + 1 := by omega
      rw [hk, List.take_succ_cons, List.map_cons]
      simp

/-- Budget invariant of the sampler: when anything was sampled, the total
length of all lines but the last stays below the character budget (the last
line may overshoot, since the budget is checked before appending). -/
theorem sampleGo_budget (mm mc : Nat) :
    ∀ (rows : List MsgRow) (count total : Nat) (lines : List String),
      total = (lines.map String.length).sum →
      (sampleGo mm mc rows count total lines).1 = lines ∨
        ((sampleGo mm mc rows count total lines).1 ≠ [] ∧
          (((sampleGo mm mc rows count total lines).1.dropLast.map String.length).sum < mc)) := by
  intro rows
  induction rows with
  | nil => intro count total lines htot; left; rw [sampleGo]
  | cons r rest ih =>
    intro count total lines htot
    rw [sampleGo]
    by_cases hstop : count ≥ mm ∨ total ≥ mc
    · rw [if_pos hstop]; left; rfl
    · rw [if_neg hstop]
      push_neg at hstop
      have hrec := ih (count + 1) (total + (sampleLine r).length) (lines ++ [sampleLine r])
        (by simp [htot])
      rcases hrec with h | h
      · right
        constructor
        · rw [h]; simp
        · rw [h, List.dropLast_concat]
          omega
      · right; exact h

/-- C9 (amended): the insights sample holds at most `max_messages` lines, each
being the rendering of one of the first sampled rows in order; sampling stops
once the accumulated length reaches `max_chars`, so the total length of all
lines except possibly the last stays below the budget (the final line may
overshoot it); any single content longer than 240 characters is truncated with
an ellipsis; and the "N omitted" footer appears exactly when fewer messages
were sampled than there are rows. -/
theorem insights_sample_caps :
    (∀ (rows : List MsgRow) (mm mc : Nat), (buildSample rows mm mc).1.length ≤ mm) ∧
    (∀ (rows : List MsgRow) (mm mc : Nat), (buildSample rows mm mc).1 = [] ∨
      (((buildSample rows mm mc).1.dropLast.map String.length).sum < mc)) ∧
    (∀ (rows : List MsgRow) (mm mc : Nat), (buildSample rows mm mc).1 =
      (rows.take (buildSample rows mm mc).2).map sampleLine) ∧
    (∀ r : MsgRow, 240 < (pyStrip (replaceChar r.mensagem '\n' " ")).length →
      sampleContent r = pyTake (pyStrip (replaceChar r.mensagem '\n' " ")) 240 ++ "...") ∧
    (∀ r : MsgRow, (pyStrip (replaceChar r.mensagem '\n' " ")).length ≤ 240 →
      sampleContent r = pyStrip (replaceChar r.mensagem '\n' " ")) ∧
    (∀ (rows : List MsgRow) (mm mc : Nat),
      sampleFooter rows mm mc ≠ [] ↔ (buildSample rows mm mc).2 < rows.length) := by
  refine ⟨?_, ?_, ?_, ?_, ?_, ?_⟩
  · intro rows mm mc
    have h1 := sampleGo_lines_eq mm mc rows 0 0 []
    have h2 := sampleGo_count_le mm mc rows 0 0 [] (Nat.zero_le mm)
    rw [buildSample, h1]
    simp only [List.nil_append, List.length_map]
    exact le_trans (List.length_take_le _ _) (by omega)
  · intro rows mm mc
    have := sampleGo_budget mm mc rows 0 0 [] (by simp)
    rcases this with h | h
    · left; exact h
    · right; exact h.2
  · intro rows mm mc
    have h1 := sampleGo_lines_eq mm mc rows 0 0 []
    rw [buildSample, h1]
    simp [buildSample]
  · intro r h
    rw [sampleContent, if_pos h]
  · intro r h
    rw [sampleContent, if_neg (by omega)]
  · intro rows mm mc
    rw [sampleFooter]
    by_cases h : (buildSample rows mm mc).2 < rows.length
    · rw [if_pos h]; simpa using h
    · rw [if_neg h]; simpa using h

/-- C9 counterexample: with a character budget of 1, the single rendered line
(24 characters even for empty content) is still emitted, so the sample's total
length exceeds the budget, refuting "bounded in total by the max_chars
character budget". -/
theorem insights_sample_budget_counterexample :
    (((buildSample [⟨1, "", "", "", "", "", "", .none, "", "", none, none⟩] 10 1).1.map
        String.length).sum = 24) ∧
    24 > 1 := by
  constructor
  · decide
  · omega

/-- Characters with equal code points are equal. -/
theorem char_toNat_inj (a b : Char) (h : a.toNat = b.toNat) : a = b :=
  Char.eq_of_val_eq (UInt32.ext h)

/-- Irreflexivity of the code-point comparison. -/
theorem charsLt_irrefl : ∀ cs : List Char, charsLt cs cs = false := by
  intro cs
  induction cs with
  | nil => rfl
  | cons c rest ih =>
    rw [charsLt]
    rw [if_neg (by omega), if_neg (by omega)]
    exact ih

/-- Asymmetry of the code-point comparison. -/
theorem charsLt_asymm : ∀ a b : List Char, charsLt a b = true → charsLt b a = false := by
  intro a
  induction a with
  | nil =>
    intro b h
    cases b with
    | nil => simp [charsLt] at h
    | cons c cs => rfl
  | cons x xs ih =>
    intro b h
    cases b with
    | nil => simp [charsLt] at h
    | cons y ys =>
      rw [charsLt] at h ⊢
      by_cases h1 : x.toNat < y.toNat
      · rw [if_neg (by omega), if_pos h1]
      · by_cases h2 : y.toNat < x.toNat
        · rw [if_neg h1, if_pos h2] at h
          exact absurd h (by simp)
        · rw [if_neg h1, if_neg h2] at h
          rw [if_neg h2, if_neg h1]
          exact ih ys h

/-- Transitivity of the code-point comparison. -/
theorem charsLt_trans : ∀ a b c : List Char,
    charsLt a b = true → charsLt b c = true → charsLt a c = true := by
  intro a
  induction a with
  | nil =>
    intro b c hab hbc
    cases c with
    | nil =>
      cases b with
      | nil => simp [charsLt] at hab
      | cons y ys => simp [charsLt] at hbc
    | cons z zs => rfl
  | cons x xs ih =>
    intro b c hab hbc
    cases b with
    | nil => simp [charsLt] at hab
    | cons y ys =>
      cases c with
      | nil => simp [charsLt] at hbc
      | cons z zs =>
        rw [charsLt] at hab hbc ⊢
        by_cases h1 : x.toNat < y.toNat <;> by_cases h2 : y.toNat < z.toNat
        · rw [if_pos (by omega)]
        · by_cases h3 : z.toNat < y.toNat
          · rw [if_neg h2, if_pos h3] at hbc; exact absurd hbc (by simp)
          · rw [if_pos (by omega)]
        · by_cases h3 : y.toNat < x.toNat
          · rw [if_neg h1, if_pos h3] at hab; exact absurd hab (by simp)
          · rw [if_pos (by omega)]
        · by_cases h3 : y.toNat < x.toNat
          · rw [if_neg h1, if_pos h3] at hab; exact absurd hab (by simp)
          · by_cases h4 : z.toNat < y.toNat
            · rw [if_neg h2, if_pos h4] at hbc; exact absurd hbc (by simp)
            · rw [if_neg h1, if_neg h3] at hab
              rw [if_neg h2, if_neg h4] at hbc
              rw [if_neg (by omega), if_neg (by omega)]
              exact ih ys zs hab hbc

/-- Connectedness of the code-point comparison: mutually non-smaller lists are
equal. -/
theorem charsLt_conn : ∀ a b : List Char,
    charsLt a b = false → charsLt b a = false → a = b := by
  intro a
  induction a with
  | nil =>
    intro b h1 _
    cases b with
    | nil => rfl
    | cons c cs => simp [charsLt] at h1
  | cons x xs ih =>
    intro b h1 h2
    cases b with
    | nil => simp [charsLt] at h2
    | cons y ys =>
      rw [charsLt] at h1 h2
      by_cases ha : x.toNat < y.toNat
      · rw [if_pos ha] at h1; exact absurd h1 (by simp)
      · by_cases hb : y.toNat < x.toNat
        · rw [if_pos hb] at h2; exact absurd h2 (by simp)
        · rw [if_neg ha, if_neg hb] at h1
          rw [if_neg hb, if_neg ha] at h2
          have hxy : x = y := char_toNat_inj x y (by omega)
          rw [hxy, ih ys h1 h2]

/-- Connectedness lifted to strings. -/
theorem strLt_conn (a b : String) (h1 : strLt a b = false) (h2 : strLt b a = false) : a = b :=
  String.toList_inj.mp (charsLt_conn a.data b.data h1 h2)

/-- Irreflexivity lifted to strings. -/
theorem strLt_irrefl (a : String) : strLt a a = false := charsLt_irrefl a.data

/-- Asymmetry lifted to strings. -/
theorem strLt_asymm (a b : String) (h : strLt a b = true) : strLt b a = false :=
  charsLt_asymm a.data b.data h

/-- Propositional characterisation of the key comparison. -/
theorem keyLE_iff (a b : Int × String × Int) : keyLE a b = true ↔
    (a.1 < b.1 ∨ (a.1 = b.1 ∧ (strLt a.2.1 b.2.1 = true ∨
      (strLt a.2.1 b.2.1 = false ∧ strLt b.2.1 a.2.1 = false ∧ a.2.2 ≤ b.2.2)))) := by
  unfold keyLE
  by_cases h1 : a.1 < b.1
  · simp [h1]
  · rw [if_neg h1]
    by_cases h2 : b.1 < a.1
    · rw [if_pos h2]
      constructor
      · intro hf; exact absurd hf (by simp)
      · intro hor
        rcases hor with h | ⟨he, _⟩
        · omega
        · omega
    · rw [if_neg h2]
      have heq : a.1 = b.1 := by omega
      by_cases h3 : strLt a.2.1 b.2.1 = true
      · simp [h3, heq]
      · rw [if_neg h3]
        by_cases h4 : strLt b.2.1 a.2.1 = true
        · rw [if_pos h4]
          constructor
          · intro hf; exact absurd hf (by simp)
          · intro hor
            rcases hor with h | ⟨_, hc | ⟨_, hn, _⟩⟩
            · omega
            · exact absurd hc h3
            · rw [hn] at h4; exact absurd h4 (by simp)
        · rw [if_neg h4]
          simp only [decide_eq_true_eq]
          constructor
          · intro hle
            exact Or.inr ⟨heq, Or.inr ⟨by simpa using h3, by simpa using h4, hle⟩⟩
          · intro hor
            rcases hor with h | ⟨_, hc | ⟨_, _, hle⟩⟩
            · omega
            · exact absurd hc h3
            · exact hle

/-- Totality of the key comparison. -/
theorem keyLE_total (a b : Int × String × Int) : keyLE a b = true ∨ keyLE b a = true := by
  rw [keyLE_iff, keyLE_iff]
  rcases lt_trichotomy a.1 b.1 with h | h | h
  · exact Or.inl (Or.inl h)
  · by_cases h3 : strLt a.2.1 b.2.1 = true
    · exact Or.inl (Or.inr ⟨h, Or.inl h3⟩)
    · by_cases h4 : strLt b.2.1 a.2.1 = true
      · exact Or.inr (Or.inr ⟨h.symm, Or.inl h4⟩)
      · rcases le_total a.2.2 b.2.2 with h5 | h5
        · exact Or.inl (Or.inr ⟨h, Or.inr ⟨by simpa using h3, by simpa using h4, h5⟩⟩)
        · exact Or.inr (Or.inr ⟨h.symm, Or.inr ⟨by simpa using h4, by simpa using h3, h5⟩⟩)
  · exact Or.inr (Or.inl h)

/-- Transitivity of the key comparison. -/
theorem keyLE_trans (a b c : Int × String × Int)
    (hab : keyLE a b = true) (hbc : keyLE b c = true) : keyLE a c = true := by
  rw [keyLE_iff] at hab hbc ⊢
  rcases hab with h1 | ⟨h1, hs1⟩
  · rcases hbc with h2 | ⟨h2, _⟩
    · exact Or.inl (by omega)
    · exact Or.inl (by omega)
  · rcases hbc with h2 | ⟨h2, hs2⟩
    · exact Or.inl (by omega)
    · refine Or.inr ⟨by omega, ?_⟩
      rcases hs1 with hl1 | ⟨hn1, hm1, hi1⟩
      · rcases hs2 with hl2 | ⟨hn2, hm2, hi2⟩
        · exact Or.inl (charsLt_trans _ _ _ hl1 hl2)
        · have heq : b.2.1 = c.2.1 := strLt_conn _ _ hn2 hm2
          rw [← heq]
          exact Or.inl hl1
      · rcases hs2 with hl2 | ⟨hn2, hm2, hi2⟩
        · have heq : a.2.1 = b.2.1 := strLt_conn _ _ hn1 hm1
          rw [heq]
          exact Or.inl hl2
        · have heq1 : a.2.1 = b.2.1 := strLt_conn _ _ hn1 hm1
          have heq2 : b.2.1 = c.2.1 := strLt_conn _ _ hn2 hm2
          refine Or.inr ⟨?_, ?_, le_trans hi1 hi2⟩
          · rw [heq1, heq2]; exact strLt_irrefl _
          · rw [heq1, heq2]; exact strLt_irrefl _

/-- Antisymmetry of the key comparison. -/
theorem keyLE_antisymm (a b : Int × String × Int)
    (hab : keyLE a b = true) (hba : keyLE b a = true) : a = b := by
  rw [keyLE_iff] at hab hba
  rcases hab with h1 | ⟨h1, hs1⟩
  · rcases hba with h2 | ⟨h2, _⟩
    · omega
    · omega
  · rcases hba with h2 | ⟨h2, hs2⟩
    · omega
    · have hstr : a.2.1 = b.2.1 := by
        rcases hs1 with hl1 | ⟨hn1, hm1, _⟩
        · rcases hs2 with hl2 | ⟨hn2, hm2, _⟩
          · exact absurd hl2 (by rw [strLt_asymm _ _ hl1]; simp)
          · exact absurd hl1 (by simp [hm2])
        · exact strLt_conn _ _ hn1 hm1
      have hint : a.2.2 = b.2.2 := by
        rcases hs1 with hl1 | ⟨hn1, _, hi1⟩
        · rw [hstr] at hl1
          exact absurd hl1 (by simp [strLt_irrefl])
        · rcases hs2 with hl2 | ⟨_, _, hi2⟩
          · rw [hstr] at hl2
            exact absurd hl2 (by simp [strLt_irrefl])
          · omega
      have h12 : a.1 = b.1 := h1
      exact Prod.ext h12 (Prod.ext hstr hint)

/-- Totality of the row comparison. -/
theorem rowLE_total (a b : MsgRow) : rowLE a b = true ∨ rowLE b a = true :=
  keyLE_total (rowSortKey a) (rowSortKey b)

/-- Transitivity of the row comparison. -/
theorem rowLE_trans (a b c : MsgRow) (h1 : rowLE a b = true) (h2 : rowLE b c = true) :
    rowLE a c = true :=
  keyLE_trans (rowSortKey a) (rowSortKey b) (rowSortKey c) h1 h2

/-- Mutually comparable rows have equal sort keys. -/
theorem rowLE_antisymm_key (a b : MsgRow) (h1 : rowLE a b = true) (h2 : rowLE b a = true) :
    rowSortKey a = rowSortKey b :=
  keyLE_antisymm (rowSortKey a) (rowSortKey b) h1 h2

/-- C10: when two rows tie on the conversation-creation instant, their order
is decided by the code-point-lexicographic comparison of the decimal strings
of their conversation ids (so "10" sorts before "2"), not by numeric value;
a missing creation or message instant is keyed as `datetime.min`; and the
key comparison is total. -/
theorem sortKey_tiebreak :
    (∀ a b : MsgRow, (rowSortKey a).1 = (rowSortKey b).1 →
      strLt (toString a.id_conversa) (toString b.id_conversa) = true →
      rowLE a b = true ∧ rowLE b a = false) ∧
    ((sortMsgRows [⟨2, "", "", "", "", "", "", .none, "", "", some 5, none⟩,
        ⟨10, "", "", "", "", "", "", .none, "", "", some 5, none⟩]).map
      (fun r => r.id_conversa) = [10, 2]) ∧
    (strLt "10" "2" = true ∧ ¬ ((10 : Int) < 2)) ∧
    (∀ r : MsgRow, r.sort_conv_dt = none → (rowSortKey r).1 = pyDatetimeMin) ∧
    (∀ r : MsgRow, r.sort_msg_dt = none → (rowSortKey r).2.2 = pyDatetimeMin) ∧
    (∀ a b : MsgRow, rowLE a b = true ∨ rowLE b a = true) := by
  refine ⟨?_, by decide, by decide, ?_, ?_, rowLE_total⟩
  · intro a b h hlt
    constructor
    · rw [rowLE, keyLE_iff]
      exact Or.inr ⟨h, Or.inl hlt⟩
    · cases hba : rowLE b a with
      | false => rfl
      | true =>
        rw [rowLE, keyLE_iff] at hba
        have ha2 : (rowSortKey a).2.1 = toString a.id_conversa := rfl
        have hb2 : (rowSortKey b).2.1 = toString b.id_conversa := rfl
        rcases hba with h' | ⟨heq, hl | ⟨hn, hm, _⟩⟩
        · rw [h] at h'; exact absurd h' (lt_irrefl _)
        · rw [ha2, hb2] at hl
          exact absurd hl (by rw [strLt_asymm _ _ hlt]; simp)
        · rw [ha2, hb2] at hm
          exact absurd hlt (by simp [hm])
  · intro r h; simp [rowSortKey, h]
  · intro r h; simp [rowSortKey, h]

/-- Witness for C10: concrete rows with equal creation instants and ids 10
and 2 order by the id strings. -/
theorem sortKey_tiebreak_witness :
    rowLE ⟨10, "", "", "", "", "", "", .none, "", "", some 5, none⟩
        ⟨2, "", "", "", "", "", "", .none, "", "", some 5, none⟩ = true ∧
    rowLE ⟨2, "", "", "", "", "", "", .none, "", "", some 5, none⟩
        ⟨10, "", "", "", "", "", "", .none, "", "", some 5, none⟩ = false :=
  sortKey_tiebreak.1 ⟨10, "", "", "", "", "", "", .none, "", "", some 5, none⟩
    ⟨2, "", "", "", "", "", "", .none, "", "", some 5, none⟩ (by decide) (by decide)

/-- Witness for C3: the digit-string branch evaluated at "01". -/
theorem messageDirection_cases_and_counters_witness :
    messageDirection { message_type := PyVal.str "01" } =
      (if decValue (pyLower "01").toList = 0 then some "incoming"
       else if decValue (pyLower "01").toList = 1 then some "outgoing" else none) :=
  messageDirection_cases_and_counters.2.2.2.2.2.1 { message_type := PyVal.str "01" } "01" rfl
    (by decide) (by decide)

set_option maxRecDepth 10000 in
/-- Witness for C9: the truncation branch at a 241-character content. -/
theorem insights_sample_caps_witness :
    sampleContent ⟨1, "", "", "", "", "", "", .none, (List.replicate 241 'a').asString, "",
        none, none⟩ =
      pyTake (pyStrip (replaceChar (List.replicate 241 'a').asString '\n' " ")) 240 ++ "..." :=
  insights_sample_caps.2.2.2.1
    ⟨1, "", "", "", "", "", "", .none, (List.replicate 241 'a').asString, "", none, none⟩
    (by decide)

/-- One scan step turns the bot-outgoing flag on exactly for bot-outgoing
survivors. -/
theorem scanFlagsUpdate_hasBot (cfg : BotConfig) (acc : ConvScan) (m : Message) :
    (scanFlagsUpdate cfg acc m).hasBotOutgoing =
      (acc.hasBotOutgoing ||
        ((messageDirection m == some "outgoing") && isBotSender cfg m)) := by
  unfold scanFlagsUpdate
  split_ifs <;> simp_all

/-- Flag update for the agent flag. -/
theorem scanFlagsUpdate_hasAgent (cfg : BotConfig) (acc : ConvScan) (m : Message) :
    (scanFlagsUpdate cfg acc m).hasAgentOutgoing =
      (acc.hasAgentOutgoing ||
        ((messageDirection m == some "outgoing") && !isBotSender cfg m &&
          isAgentSender cfg m)) := by
  unfold scanFlagsUpdate
  split_ifs <;> simp_all

/-- The private/direction/row updates never touch the outgoing flags. -/
theorem scanTail_flags (cfg : BotConfig) (info : ConvInfo) (cid : Int) (acc : ConvScan)
    (m : Message) :
    (scanPrivUpdate acc m).hasBotOutgoing = acc.hasBotOutgoing ∧
    (scanPrivUpdate acc m).hasAgentOutgoing = acc.hasAgentOutgoing ∧
    (scanDirCounters acc m).hasBotOutgoing = acc.hasBotOutgoing ∧
    (scanDirCounters acc m).hasAgentOutgoing = acc.hasAgentOutgoing ∧
    (scanRowAppend cfg info cid acc m).hasBotOutgoing = acc.hasBotOutgoing ∧
    (scanRowAppend cfg info cid acc m).hasAgentOutgoing = acc.hasAgentOutgoing := by
  unfold scanPrivUpdate scanDirCounters scanRowAppend
  split_ifs <;> simp_all

/-- One scan step turns the bot-outgoing flag on exactly for bot-outgoing
survivors. -/
theorem scanStep_hasBot (cfg : BotConfig) (ctype : String) (sel : List String) (s e : Int)
    (info : ConvInfo) (cid : Int) (addRows : Bool) (acc : ConvScan) (m : Message) :
    (scanStep cfg ctype sel s e info cid addRows acc m).hasBotOutgoing =
      (acc.hasBotOutgoing || msgIsBotOutgoing cfg sel s e m) := by
  unfold scanStep
  by_cases h1 : msgInWindow s e m = false
  · rw [if_pos h1]
    simp [msgIsBotOutgoing, h1]
  · rw [if_neg h1]
    by_cases h2 : msgStatusOk sel m = false
    · rw [if_pos h2]
      simp [msgIsBotOutgoing, h2]
    · rw [if_neg h2]
      have hw : msgInWindow s e m = true := by simpa using h1
      have hs : msgStatusOk sel m = true := by simpa using h2
      have hflag := scanFlagsUpdate_hasBot cfg acc m
      by_cases h3 : includeMessageForType cfg m ctype = false
      · rw [if_pos h3, hflag]
        simp [msgIsBotOutgoing, hw, hs]
      · rw [if_neg h3]
        by_cases h4 : addRows = false
        · rw [if_pos h4]
          rw [(scanTail_flags cfg info cid (scanPrivUpdate (scanFlagsUpdate cfg acc m) m)
            m).2.2.1]
          rw [(scanTail_flags cfg info cid (scanFlagsUpdate cfg acc m) m).1, hflag]
          simp [msgIsBotOutgoing, hw, hs]
        · rw [if_neg h4]
          rw [(scanTail_flags cfg info cid
            (scanDirCounters (scanPrivUpdate (scanFlagsUpdate cfg acc m) m) m) m).2.2.2.2.1]
          rw [(scanTail_flags cfg info cid (scanPrivUpdate (scanFlagsUpdate cfg acc m) m)
            m).2.2.1]
          rw [(scanTail_flags cfg info cid (scanFlagsUpdate cfg acc m) m).1, hflag]
          simp [msgIsBotOutgoing, hw, hs]

/-- One scan step turns the agent-outgoing flag on exactly for agent-outgoing
(non-bot) survivors. -/
theorem scanStep_hasAgent (cfg : BotConfig) (ctype : String) (sel : List String) (s e : Int)
    (info : ConvInfo) (cid : Int) (addRows : Bool) (acc : ConvScan) (m : Message) :
    (scanStep cfg ctype sel s e info cid addRows acc m).hasAgentOutgoing =
      (acc.hasAgentOutgoing || msgIsAgentOutgoing cfg sel s e m) := by
  unfold scanStep
  by_cases h1 : msgInWindow s e m = false
  · rw [if_pos h1]
    simp [msgIsAgentOutgoing, h1]
  · rw [if_neg h1]
    by_cases h2 : msgStatusOk sel m = false
    · rw [if_pos h2]
      simp [msgIsAgentOutgoing, h2]
    · rw [if_neg h2]
      have hw : msgInWindow s e m = true := by simpa using h1
      have hs : msgStatusOk sel m = true := by simpa using h2
      have hflag := scanFlagsUpdate_hasAgent cfg acc m
      by_cases h3 : includeMessageForType cfg m ctype = false
      · rw [if_pos h3, hflag]
        simp [msgIsAgentOutgoing, hw, hs, Bool.and_assoc]
      · rw [if_neg h3]
        by_cases h4 : addRows = false
        · rw [if_pos h4]
          rw [(scanTail_flags cfg info cid (scanPrivUpdate (scanFlagsUpdate cfg acc m) m)
            m).2.2.2.1]
          rw [(scanTail_flags cfg info cid (scanFlagsUpdate cfg acc m) m).2.1, hflag]
          simp [msgIsAgentOutgoing, hw, hs, Bool.and_assoc]
        · rw [if_neg h4]
          rw [(scanTail_flags cfg info cid
            (scanDirCounters (scanPrivUpdate (scanFlagsUpdate cfg acc m) m) m) m).2.2.2.2.2]
          rw [(scanTail_flags cfg info cid (scanPrivUpdate (scanFlagsUpdate cfg acc m) m)
            m).2.2.2.1]
          rw [(scanTail_flags cfg info cid (scanFlagsUpdate cfg acc m) m).2.1, hflag]
          simp [msgIsAgentOutgoing, hw, hs, Bool.and_assoc]

/-- The scan's bot-outgoing flag is an existential over the message list. -/
theorem scanFold_hasBot (cfg : BotConfig) (ctype : String) (sel : List String) (s e : Int)
    (info : ConvInfo) (cid : Int) (addRows : Bool) :
    ∀ (msgs : List Message) (acc : ConvScan),
      (msgs.foldl (scanStep cfg ctype sel s e info cid addRows) acc).hasBotOutgoing =
        (acc.hasBotOutgoing || msgs.any (msgIsBotOutgoing cfg sel s e)) := by
  intro msgs
  induction msgs with
  | nil => intro acc; simp
  | cons m t ih =>
    intro acc
    rw [List.foldl_cons, ih, scanStep_hasBot]
    simp [Bool.or_assoc]

/-- The scan's agent-outgoing flag is an existential over the message list. -/
theorem scanFold_hasAgent (cfg : BotConfig) (ctype : String) (sel : List String) (s e : Int)
    (info : ConvInfo) (cid : Int) (addRows : Bool) :
    ∀ (msgs : List Message) (acc : ConvScan),
      (msgs.foldl (scanStep cfg ctype sel s e info cid addRows) acc).hasAgentOutgoing =
        (acc.hasAgentOutgoing || msgs.any (msgIsAgentOutgoing cfg sel s e)) := by
  intro msgs
  induction msgs with
  | nil => intro acc; simp
  | cons m t ih =>
    intro acc
    rw [List.foldl_cons, ih, scanStep_hasAgent]
    simp [Bool.or_assoc]

/-- The "Bot" gate reduces to the bot-outgoing flag. -/
theorem convKept_bot (scan : ConvScan) : convKept "Bot" scan = scan.hasBotOutgoing := by
  cases h : scan.hasBotOutgoing <;> simp [convKept, h]

/-- The "Agente" gate reduces to the agent-outgoing flag. -/
theorem convKept_agente (scan : ConvScan) : convKept "Agente" scan = scan.hasAgentOutgoing := by
  cases h : scan.hasAgentOutgoing <;> simp [convKept, h]

/-- C1: under the "Bot" conversation-type filter a conversation is kept iff
some message surviving the date-window and message-status filters is outgoing
and bot-classified (and symmetrically for "Agente" with the agent
classification); in particular a conversation with one outgoing "agentbot"
message and one outgoing "user" message is kept under "Bot" and under
"Agente", while a conversation whose only outgoing message is bot-classified
is dropped under "Agente". -/
theorem conversation_type_gate :
    (∀ (cfg : BotConfig) (sel : List String) (s e : Int) (info : ConvInfo) (cid : Int)
        (addRows : Bool) (msgs : List Message),
      convKept "Bot" (scanConvMessages cfg "Bot" sel s e info cid addRows msgs) = true ↔
        ∃ m ∈ msgs, msgIsBotOutgoing cfg sel s e m = true) ∧
    (∀ (cfg : BotConfig) (sel : List String) (s e : Int) (info : ConvInfo) (cid : Int)
        (addRows : Bool) (msgs : List Message),
      convKept "Agente" (scanConvMessages cfg "Agente" sel s e info cid addRows msgs) = true ↔
        ∃ m ∈ msgs, msgIsAgentOutgoing cfg sel s e m = true) ∧
    (convKept "Bot" (scanConvMessages {} "Bot" [] 0 100 {} 1 true
      [{ message_type := .int 1, sender_type := some "agentbot" },
       { message_type := .int 1, sender_type := some "user" }]) = true) ∧
    (convKept "Agente" (scanConvMessages {} "Agente" [] 0 100 {} 1 true
      [{ message_type := .int 1, sender_type := some "agentbot" },
       { message_type := .int 1, sender_type := some "user" }]) = true) ∧
    (convKept "Agente" (scanConvMessages {} "Agente" [] 0 100 {} 1 true
      [{ message_type := .int 1, sender_type := some "agentbot" }]) = false) := by
  refine ⟨?_, ?_, by decide, by decide, by decide⟩
  · intro cfg sel s e info cid addRows msgs
    rw [convKept_bot, scanConvMessages,
      scanFold_hasBot cfg "Bot" sel s e info cid addRows msgs {}]
    simp [List.any_eq_true]
  · intro cfg sel s e info cid addRows msgs
    rw [convKept_agente, scanConvMessages,
      scanFold_hasAgent cfg "Agente" sel s e info cid addRows msgs {}]
    simp [List.any_eq_true]

/-- Digit characters decode back to their value. -/
theorem digitVal_digitChar (k : Nat) (h : k < 10) : digitVal (Nat.digitChar k) = k := by
  interval_cases k <;> rfl

/-- Digit characters of digits are decimal digits. -/
theorem digitChar_isDigit (k : Nat) (h : k < 10) : (Nat.digitChar k).isDigit = true := by
  interval_cases k <;> decide

/-- The decimal digit list decodes back to the number. -/
theorem decValue_decDigits : ∀ n : Nat, decValue (decDigits n) = n := by
  intro n
  induction n using Nat.strong_induction_on with
  | _ n ih =>
    rw [decDigits]
    by_cases h : n < 10
    · rw [if_pos h]
      simp [decValue, digitVal_digitChar n h]
    · rw [if_neg h]
      have h10 : n / 10 < n := Nat.div_lt_self (by omega) (by omega)
      have ihh := ih (n / 10) h10
      rw [decValue, List.foldl_append]
      simp only [List.foldl_cons, List.foldl_nil]
      rw [show List.foldl (fun a c => 10 * a + digitVal c) 0 (decDigits (n / 10)) =
        decValue (decDigits (n / 10)) from rfl, ihh,
        digitVal_digitChar _ (Nat.mod_lt _ (by omega))]
      omega

/-- The decimal digit list starts with a digit character. -/
theorem decDigits_head_isDigit : ∀ n : Nat, ∃ c cs, decDigits n = c :: cs ∧ c.isDigit = true := by
  intro n
  induction n using Nat.strong_induction_on with
  | _ n ih =>
    rw [decDigits]
    by_cases h : n < 10
    · rw [if_pos h]
      exact ⟨Nat.digitChar n, [], rfl, digitChar_isDigit n h⟩
    · rw [if_neg h]
      obtain ⟨c, cs, heq, hdig⟩ := ih (n / 10) (Nat.div_lt_self (by omega) (by omega))
      exact ⟨c, cs ++ [Nat.digitChar (n % 10)], by rw [heq]; rfl, hdig⟩

/-- The fuel-based core rendering agrees with the decimal digit list. -/
theorem toDigitsCore_eq_decDigits : ∀ (fuel n : Nat) (ds : List Char), n < fuel →
    Nat.toDigitsCore 10 fuel n ds = decDigits n ++ ds := by
  intro fuel
  induction fuel with
  | zero => intro n ds h; omega
  | succ f ih =>
    intro n ds h
    rw [Nat.toDigitsCore]
    by_cases h0 : n / 10 = 0
    · rw [if_pos h0]
      have hn : n < 10 := by omega
      rw [decDigits, if_pos hn, Nat.mod_eq_of_lt hn]
      rfl
    · rw [if_neg h0]
      have hlt : n / 10 < f := by
        have : n / 10 < n := Nat.div_lt_self (by omega) (by omega)
        omega
      rw [ih (n / 10) (Nat.digitChar (n % 10) :: ds) hlt]
      have hn : ¬ n < 10 := by
        intro hlt10
        exact h0 (Nat.div_eq_of_lt hlt10)
      conv_rhs => rw [decDigits]
      rw [if_neg hn]
      simp

/-- Decimal rendering of naturals is injective. -/
theorem natRepr_inj (a b : Nat) (h : Nat.repr a = Nat.repr b) : a = b := by
  have ha : Nat.toDigits 10 a = decDigits a := by
    rw [Nat.toDigits, toDigitsCore_eq_decDigits (a + 1) a [] (by omega)]
    simp
  have hb : Nat.toDigits 10 b = decDigits b := by
    rw [Nat.toDigits, toDigitsCore_eq_decDigits (b + 1) b [] (by omega)]
    simp
  rw [Nat.repr, Nat.repr, ha, hb] at h
  have hdata : decDigits a = decDigits b := by
    have := congrArg String.data h
    simpa using this
  calc a = decValue (decDigits a) := (decValue_decDigits a).symm
    _ = decValue (decDigits b) := by rw [hdata]
    _ = b := decValue_decDigits b

/-- The decimal rendering of a natural starts with a digit character. -/
theorem natRepr_head_isDigit (n : Nat) :
    ∃ c cs, (Nat.repr n).data = c :: cs ∧ c.isDigit = true := by
  have ha : Nat.toDigits 10 n = decDigits n := by
    rw [Nat.toDigits, toDigitsCore_eq_decDigits (n + 1) n [] (by omega)]
    simp
  obtain ⟨c, cs, heq, hdig⟩ := decDigits_head_isDigit n
  exact ⟨c, cs, by rw [Nat.repr, ha]; simpa using congrArg id heq, hdig⟩

/-- `str(conversation_id)` is injective: distinct ids render to distinct
decimal strings. -/
theorem intToString_inj (a b : Int) (h : toString a = toString b) : a = b := by
  cases a with
  | ofNat m =>
    cases b with
    | ofNat k => exact congrArg Int.ofNat (natRepr_inj m k h)
    | negSucc k =>
      exfalso
      obtain ⟨c, cs, hd, hdig⟩ := natRepr_head_isDigit m
      have hdata : (Nat.repr m).data = '-' :: (Nat.repr (k + 1)).data := congrArg String.data h
      rw [hd] at hdata
      have hc : c = '-' := (List.cons.injEq _ _ _ _ ▸ hdata).1
      rw [hc] at hdig
      exact absurd hdig (by decide)
  | negSucc m =>
    cases b with
    | ofNat k =>
      exfalso
      obtain ⟨c, cs, hd, hdig⟩ := natRepr_head_isDigit k
      have hdata : '-' :: (Nat.repr (m + 1)).data = (Nat.repr k).data := congrArg String.data h
      rw [hd] at hdata
      have hc : '-' = c := (List.cons.injEq _ _ _ _ ▸ hdata).1
      rw [← hc] at hdig
      exact absurd hdig (by decide)
    | negSucc k =>
      have hdata : '-' :: (Nat.repr (m + 1)).data = '-' :: (Nat.repr (k + 1)).data :=
        congrArg String.data h
      have htail : (Nat.repr (m + 1)).data = (Nat.repr (k + 1)).data :=
        (List.cons.injEq _ _ _ _ ▸ hdata).2
      have hrepr : Nat.repr (m + 1) = Nat.repr (k + 1) := congrArg String.mk htail
      have := natRepr_inj (m + 1) (k + 1) hrepr
      exact congrArg Int.negSucc (by omega)

/-- Insertions of rows with `b` strictly before `a` commute. -/
theorem orderedInsertRow_comm_lt (a b : MsgRow) (h : rowLE a b = false) :
    ∀ s : List MsgRow,
      orderedInsertRow a (orderedInsertRow b s) = orderedInsertRow b (orderedInsertRow a s) := by
  have hba : rowLE b a = true := by
    rcases rowLE_total a b with h1 | h1
    · rw [h1] at h; exact absurd h (by simp)
    · exact h1
  intro s
  induction s with
  | nil => simp [orderedInsertRow, h, hba]
  | cons x t ih =>
    by_cases hbx : rowLE b x = true
    · by_cases hax : rowLE a x = true
      · simp [orderedInsertRow, h, hba, hbx, hax]
      · simp [orderedInsertRow, h, hba, hbx, hax]
    · have hax : rowLE a x = false := by
        cases hh : rowLE a x with
        | false => rfl
        | true => exact absurd (rowLE_trans b a x hba hh) (by simp [hbx])
      simp only [orderedInsertRow, hbx, hax, Bool.false_eq_true, if_false]
      rw [ih]

/-- Insertions of rows with different sort keys commute. -/
theorem orderedInsertRow_comm (a b : MsgRow) (h : rowSortKey a ≠ rowSortKey b)
    (s : List MsgRow) :
    orderedInsertRow a (orderedInsertRow b s) = orderedInsertRow b (orderedInsertRow a s) := by
  cases hab : rowLE a b with
  | false => exact orderedInsertRow_comm_lt a b hab s
  | true =>
    cases hba : rowLE b a with
    | false => exact (orderedInsertRow_comm_lt b a hba s).symm
    | true => exact absurd (rowLE_antisymm_key a b hab hba) h

/-- A single insertion commutes with a block of key-disjoint insertions. -/
theorem foldr_OI_single (a : MsgRow) :
    ∀ (B : List MsgRow) (s : List MsgRow), (∀ b ∈ B, rowSortKey a ≠ rowSortKey b) →
      orderedInsertRow a (B.foldr orderedInsertRow s) =
        B.foldr orderedInsertRow (orderedInsertRow a s) := by
  intro B
  induction B with
  | nil => intro s _; rfl
  | cons x t ih =>
    intro s hdisj
    simp only [List.foldr_cons]
    rw [orderedInsertRow_comm a x (hdisj x (by simp)) (t.foldr orderedInsertRow s)]
    rw [ih s (fun b hb => hdisj b (by simp [hb]))]

/-- Two key-disjoint blocks of insertions commute. -/
theorem foldr_OI_blocks :
    ∀ (A B : List MsgRow) (s : List MsgRow),
      (∀ a ∈ A, ∀ b ∈ B, rowSortKey a ≠ rowSortKey b) →
      A.foldr orderedInsertRow (B.foldr orderedInsertRow s) =
        B.foldr orderedInsertRow (A.foldr orderedInsertRow s) := by
  intro A
  induction A with
  | nil => intro B s _; rfl
  | cons x t ih =>
    intro B s h
    simp only [List.foldr_cons]
    rw [ih B s (fun a ha b hb => h a (by simp [ha]) b hb)]
    rw [foldr_OI_single x B (t.foldr orderedInsertRow s) (fun b hb => h x (by simp) b hb)]

/-- Sorting a concatenation folds the first part into the sorted rest. -/
theorem sortMsgRows_append (l1 l2 : List MsgRow) :
    sortMsgRows (l1 ++ l2) = l1.foldr orderedInsertRow (sortMsgRows l2) := by
  simp [sortMsgRows, List.foldr_append]

/-- Block compatibility is symmetric. -/
theorem blockCompat_symm : Symmetric blockCompat := by
  intro A B h
  rcases h with h | h
  · exact Or.inl h.symm
  · exact Or.inr (fun b hb a ha => (h a ha b hb).symm)

/-- The stable sort of joined blocks is invariant under block permutation,
provided any two blocks are equal or key-disjoint. -/
theorem sort_join_perm (blocks1 blocks2 : List (List MsgRow)) (hp : blocks1.Perm blocks2) :
    blocks1.Pairwise blockCompat →
      sortMsgRows blocks1.join = sortMsgRows blocks2.join := by
  induction hp with
  | nil => intro _; rfl
  | cons x p ih =>
    intro hc
    simp only [List.join_cons]
    rw [sortMsgRows_append, sortMsgRows_append, ih (List.pairwise_cons.mp hc).2]
  | swap x y l =>
    intro hc
    have h1 := List.pairwise_cons.mp hc
    have hyx : blockCompat y x := h1.1 x (by simp)
    simp only [List.join_cons]
    rw [sortMsgRows_append, sortMsgRows_append, sortMsgRows_append, sortMsgRows_append]
    rcases hyx with heq | hdisj
    · rw [heq]
    · exact foldr_OI_blocks y x (sortMsgRows l.join) hdisj
  | trans p1 p2 ih1 ih2 =>
    intro hc
    exact (ih1 hc).trans (ih2 ((p1.pairwise_iff (fun hxy => blockCompat_symm hxy)).mp hc))

/-- Pairwise holds for a relation that holds universally. -/
theorem pairwise_of_total {α : Type} (R : α → α → Prop) (h : ∀ a b, R a b) :
    ∀ l : List α, l.Pairwise R := by
  intro l
  induction l with
  | nil => exact List.Pairwise.nil
  | cons x t ih => exact List.Pairwise.cons (fun b _ => h x b) ih

/-- The flag update leaves the row list untouched. -/
theorem scanFlagsUpdate_rows (cfg : BotConfig) (acc : ConvScan) (m : Message) :
    (scanFlagsUpdate cfg acc m).rows = acc.rows := by
  unfold scanFlagsUpdate; split_ifs <;> rfl

/-- The private-counter update leaves the row list untouched. -/
theorem scanPrivUpdate_rows (acc : ConvScan) (m : Message) :
    (scanPrivUpdate acc m).rows = acc.rows := by
  unfold scanPrivUpdate; split_ifs <;> rfl

/-- The direction-counter update leaves the row list untouched. -/
theorem scanDirCounters_rows (acc : ConvScan) (m : Message) :
    (scanDirCounters acc m).rows = acc.rows := by
  unfold scanDirCounters; split_ifs <;> rfl

/-- Every row a scan step holds carries the scanned conversation's id. -/
theorem scanStep_rows_id (cfg : BotConfig) (ct : String) (sel : List String)
    (s e : Int) (info : ConvInfo) (cid : Int) (ar : Bool) (acc : ConvScan) (m : Message)
    (h : ∀ r ∈ acc.rows, r.id_conversa = cid) :
    ∀ r ∈ (scanStep cfg ct sel s e info cid ar acc m).rows, r.id_conversa = cid := by
  intro r hr
  simp only [scanStep] at hr
  split_ifs at hr
  · exact h r hr
  · exact h r hr
  · rw [scanFlagsUpdate_rows] at hr; exact h r hr
  · rw [scanDirCounters_rows, scanPrivUpdate_rows, scanFlagsUpdate_rows] at hr
    exact h r hr
  · simp only [scanRowAppend, scanDirCounters_rows, scanPrivUpdate_rows, scanFlagsUpdate_rows,
      List.mem_append, List.mem_singleton] at hr
    rcases hr with hr | hr
    · exact h r hr
    · rw [hr]; rfl

/-- Every row in a whole conversation scan carries the conversation's id. -/
theorem scanFold_rows_id (cfg : BotConfig) (ct : String) (sel : List String)
    (s e : Int) (info : ConvInfo) (cid : Int) (ar : Bool) :
    ∀ (msgs : List Message) (acc : ConvScan), (∀ r ∈ acc.rows, r.id_conversa = cid) →
      ∀ r ∈ (msgs.foldl (scanStep cfg ct sel s e info cid ar) acc).rows,
        r.id_conversa = cid := by
  intro msgs
  induction msgs with
  | nil => intro acc h; exact h
  | cons m t ih =>
    intro acc h
    exact ih _ (scanStep_rows_id cfg ct sel s e info cid ar acc m h)

/-- Every row of a conversation's contributed block carries that id. -/
theorem blockOf_id (env : AggEnv) (cid : Int) :
    ∀ r ∈ env.blockOf cid, r.id_conversa = cid := by
  intro r hr
  unfold AggEnv.blockOf at hr
  split_ifs at hr
  · exact scanFold_rows_id env.cfg env.ctype env.selStatuses env.start_dt env.end_dt
      (convMetaLookup env.nameMap env.conversations env.msgIds cid) cid true
      (env.fetch cid) {} (by intro r h; simp at h) r hr
  · simp at hr

/-- Two conversations' contributed blocks are always compatible: identical for
the same id, key-disjoint for different ids (the string component of the sort
key distinguishes them). -/
theorem blockOf_compat (env : AggEnv) (i j : Int) :
    blockCompat (env.blockOf i) (env.blockOf j) := by
  by_cases hij : i = j
  · exact Or.inl (by rw [hij])
  · refine Or.inr (fun a ha b hb hk => ?_)
    have ha2 := blockOf_id env i a ha
    have hb2 := blockOf_id env j b hb
    have h2 : toString a.id_conversa = toString b.id_conversa :=
      congrArg (fun k => k.2.1) hk
    exact hij (by rw [← ha2, ← hb2]; exact intToString_inj _ _ h2)

/-- One aggregation step adds the conversation's received contribution. -/
theorem aggStep_recebidas (env : AggEnv) (acc : AggAcc) (cid : Int) :
    (aggStep env acc cid).total_recebidas = acc.total_recebidas + env.recvOf cid := by
  simp only [aggStep, AggEnv.recvOf, AggEnv.keptOf]
  by_cases h : convKept env.ctype (env.scanOf cid) = true
  · simp [h]
  · rw [Bool.not_eq_true] at h
    simp [h]

/-- One aggregation step adds the conversation's sent contribution. -/
theorem aggStep_enviadas (env : AggEnv) (acc : AggAcc) (cid : Int) :
    (aggStep env acc cid).total_enviadas = acc.total_enviadas + env.sentOf cid := by
  simp only [aggStep, AggEnv.sentOf, AggEnv.keptOf]
  by_cases h : convKept env.ctype (env.scanOf cid) = true
  · simp [h]
  · rw [Bool.not_eq_true] at h
    simp [h]

/-- One aggregation step adds the conversation's private-message contribution. -/
theorem aggStep_privadas (env : AggEnv) (acc : AggAcc) (cid : Int) :
    (aggStep env acc cid).total_privadas = acc.total_privadas + env.privOf cid := by
  simp only [aggStep, AggEnv.privOf, AggEnv.keptOf]
  by_cases h : convKept env.ctype (env.scanOf cid) = true
  · simp [h]
  · rw [Bool.not_eq_true] at h
    simp [h]

/-- One aggregation step adds the conversation's message-count contribution. -/
theorem aggStep_mensagens (env : AggEnv) (acc : AggAcc) (cid : Int) :
    (aggStep env acc cid).total_mensagens = acc.total_mensagens + env.msgsOf cid := by
  simp only [aggStep, AggEnv.msgsOf, AggEnv.keptOf]
  by_cases h : convKept env.ctype (env.scanOf cid) = true
  · simp [h]
  · rw [Bool.not_eq_true] at h
    simp [h]

/-- One aggregation step inserts the id into the private set iff flagged. -/
theorem aggStep_privset (env : AggEnv) (acc : AggAcc) (cid : Int) :
    (aggStep env acc cid).conversas_privadas =
      (if env.privFlaggedOf cid then insert cid acc.conversas_privadas
       else acc.conversas_privadas) := by
  simp only [aggStep, AggEnv.privFlaggedOf, AggEnv.keptOf]
  by_cases h : convKept env.ctype (env.scanOf cid) = true
  · simp [h]
  · rw [Bool.not_eq_true] at h
    simp [h]

/-- One aggregation step inserts the id into the allowed set iff kept. -/
theorem aggStep_allowed (env : AggEnv) (acc : AggAcc) (cid : Int) :
    (aggStep env acc cid).allowed_conv_ids =
      (if env.keptOf cid then insert cid acc.allowed_conv_ids
       else acc.allowed_conv_ids) := by
  simp only [aggStep, AggEnv.keptOf]
  by_cases h : convKept env.ctype (env.scanOf cid) = true
  · simp [h]
  · rw [Bool.not_eq_true] at h
    simp [h]

/-- One aggregation step appends the conversation's row block. -/
theorem aggStep_rows (env : AggEnv) (acc : AggAcc) (cid : Int) :
    (aggStep env acc cid).message_rows = acc.message_rows ++ env.blockOf cid := by
  simp only [aggStep, AggEnv.blockOf, AggEnv.keptOf]
  by_cases h : convKept env.ctype (env.scanOf cid) = true
  · simp [h]
  · rw [Bool.not_eq_true] at h
    simp [h]

/-- The received counter of a run is the sum of per-conversation contributions. -/
theorem aggFold_recebidas (env : AggEnv) :
    ∀ (order : List Int) (acc : AggAcc),
      (order.foldl (aggStep env) acc).total_recebidas =
        acc.total_recebidas + (order.map env.recvOf).sum := by
  intro order
  induction order with
  | nil => intro acc; simp
  | cons x t ih =>
    intro acc
    simp only [List.foldl_cons, List.map_cons, List.sum_cons]
    rw [ih, aggStep_recebidas]
    omega

/-- The sent counter of a run is the sum of per-conversation contributions. -/
theorem aggFold_enviadas (env : AggEnv) :
    ∀ (order : List Int) (acc : AggAcc),
      (order.foldl (aggStep env) acc).total_enviadas =
        acc.total_enviadas + (order.map env.sentOf).sum := by
  intro order
  induction order with
  | nil => intro acc; simp
  | cons x t ih =>
    intro acc
    simp only [List.foldl_cons, List.map_cons, List.sum_cons]
    rw [ih, aggStep_enviadas]
    omega

/-- The private counter of a run is the sum of per-conversation contributions. -/
theorem aggFold_privadas (env : AggEnv) :
    ∀ (order : List Int) (acc : AggAcc),
      (order.foldl (aggStep env) acc).total_privadas =
        acc.total_privadas + (order.map env.privOf).sum := by
  intro order
  induction order with
  | nil => intro acc; simp
  | cons x t ih =>
    intro acc
    simp only [List.foldl_cons, List.map_cons, List.sum_cons]
    rw [ih, aggStep_privadas]
    omega

/-- The message counter of a run is the sum of per-conversation contributions. -/
theorem aggFold_mensagens (env : AggEnv) :
    ∀ (order : List Int) (acc : AggAcc),
      (order.foldl (aggStep env) acc).total_mensagens =
        acc.total_mensagens + (order.map env.msgsOf).sum := by
  intro order
  induction order with
  | nil => intro acc; simp
  | cons x t ih =>
    intro acc
    simp only [List.foldl_cons, List.map_cons, List.sum_cons]
    rw [ih, aggStep_mensagens]
    omega

/-- The private-conversation set of a run is the set of flagged ids. -/
theorem aggFold_privset (env : AggEnv) :
    ∀ (order : List Int) (acc : AggAcc),
      (order.foldl (aggStep env) acc).conversas_privadas =
        acc.conversas_privadas ∪ (order.filter env.privFlaggedOf).toFinset := by
  intro order
  induction order with
  | nil => intro acc; simp
  | cons x t ih =>
    intro acc
    simp only [List.foldl_cons, List.filter_cons]
    rw [ih, aggStep_privset]
    by_cases h : env.privFlaggedOf x = true
    · simp [h, Finset.insert_union, Finset.union_insert]
    · simp [h]

/-- The allowed-conversation set of a run is the set of kept ids. -/
theorem aggFold_allowed (env : AggEnv) :
    ∀ (order : List Int) (acc : AggAcc),
      (order.foldl (aggStep env) acc).allowed_conv_ids =
        acc.allowed_conv_ids ∪ (order.filter env.keptOf).toFinset := by
  intro order
  induction order with
  | nil => intro acc; simp
  | cons x t ih =>
    intro acc
    simp only [List.foldl_cons, List.filter_cons]
    rw [ih, aggStep_allowed]
    by_cases h : env.keptOf x = true
    · simp [h, Finset.insert_union, Finset.union_insert]
    · simp [h]

/-- The row list of a run is the concatenation of the per-conversation blocks
in completion order. -/
theorem aggFold_rows (env : AggEnv) :
    ∀ (order : List Int) (acc : AggAcc),
      (order.foldl (aggStep env) acc).message_rows =
        acc.message_rows ++ (order.map env.blockOf).join := by
  intro order
  induction order with
  | nil => intro acc; simp
  | cons x t ih =>
    intro acc
    simp only [List.foldl_cons, List.map_cons, List.join_cons]
    rw [ih, aggStep_rows, List.append_assoc]

/-- All order-dependent components of an aggregation run are invariant under
permutation of the completion order: the four counters, the two id sets, and
the sorted row table. -/
theorem aggFold_perm (env : AggEnv) (order1 order2 : List Int)
    (hperm : order1.Perm order2) :
    (order1.foldl (aggStep env) {}).total_recebidas =
        (order2.foldl (aggStep env) {}).total_recebidas ∧
      (order1.foldl (aggStep env) {}).total_enviadas =
        (order2.foldl (aggStep env) {}).total_enviadas ∧
      (order1.foldl (aggStep env) {}).total_privadas =
        (order2.foldl (aggStep env) {}).total_privadas ∧
      (order1.foldl (aggStep env) {}).total_mensagens =
        (order2.foldl (aggStep env) {}).total_mensagens ∧
      (order1.foldl (aggStep env) {}).conversas_privadas =
        (order2.foldl (aggStep env) {}).conversas_privadas ∧
      (order1.foldl (aggStep env) {}).allowed_conv_ids =
        (order2.foldl (aggStep env) {}).allowed_conv_ids ∧
      sortMsgRows (order1.foldl (aggStep env) {}).message_rows =
        sortMsgRows (order2.foldl (aggStep env) {}).message_rows := by
  refine ⟨?_, ?_, ?_, ?_, ?_, ?_, ?_⟩
  · rw [aggFold_recebidas, aggFold_recebidas, (hperm.map env.recvOf).sum_eq]
  · rw [aggFold_enviadas, aggFold_enviadas, (hperm.map env.sentOf).sum_eq]
  · rw [aggFold_privadas, aggFold_privadas, (hperm.map env.privOf).sum_eq]
  · rw [aggFold_mensagens, aggFold_mensagens, (hperm.map env.msgsOf).sum_eq]
  · rw [aggFold_privset, aggFold_privset,
      List.toFinset_eq_of_perm _ _ (hperm.filter env.privFlaggedOf)]
  · rw [aggFold_allowed, aggFold_allowed,
      List.toFinset_eq_of_perm _ _ (hperm.filter env.keptOf)]
  · rw [aggFold_rows, aggFold_rows]
    simp only [List.nil_append]
    exact sort_join_perm (order1.map env.blockOf) (order2.map env.blockOf)
      (hperm.map env.blockOf)
      (List.Pairwise.map env.blockOf (fun a b _ => blockOf_compat env a b)
        (pairwise_of_total (fun _ _ => True) (fun _ _ => trivial) order1))

/-- C8: over a frozen dataset (fixed conversations, fixed per-conversation
message source) and a fixed filter configuration, the aggregation's summary
statistics and its final sorted message table are independent of the order in
which the per-conversation message fetches complete: every permutation of the
completion order yields the identical result (in particular repeated runs
agree). -/
theorem aggregate_completion_order_invariant (cfg : BotConfig)
    (conversations : List Conversation) (filters : Filters)
    (nameMap : Int → Option String) (start_dt end_dt : Int)
    (fetch : Int → List Message) (order1 order2 : List Int)
    (hperm : order1.Perm order2) :
    buildInsightsAggregate cfg conversations filters nameMap start_dt end_dt fetch order1 =
      buildInsightsAggregate cfg conversations filters nameMap start_dt end_dt fetch order2 := by
  obtain ⟨h1, h2, h3, h4, h5, h6, h7⟩ :=
    aggFold_perm
      ⟨cfg, (if filters.conversation_type = "" then "Todos" else filters.conversation_type),
        normalizedStatuses filters.message_statuses, start_dt, end_dt, nameMap,
        conversations, (collectConversationRows conversations filters start_dt end_dt false).2,
        fetch⟩
      order1 order2 hperm
  simp only [buildInsightsAggregate]
  rw [h1, h2, h3, h4, h5]
  simp only [h6, h7]

/-- The order-invariance theorem applied to a concrete swapped pair of
completion orders. -/
theorem aggregate_completion_order_invariant_witness :
    ([1, 2] : List Int).Perm [2, 1] ∧
      buildInsightsAggregate {} [] {} (fun _ => none) 0 0 (fun _ => []) [1, 2] =
        buildInsightsAggregate {} [] {} (fun _ => none) 0 0 (fun _ => []) [2, 1] :=
  ⟨List.Perm.swap 2 1 [],
    aggregate_completion_order_invariant {} [] {} (fun _ => none) 0 0 (fun _ => [])
      [1, 2] [2, 1] (List.Perm.swap 2 1 [])⟩

end ConvAnalytics
